import Mathlib

/-!
Verification development for the imageflow photo-sharing backend's
single-table persistence layer.

The embedding models the two storage backends of `src/database/`:

* `MockDynamoDBService` (`mock_service.py`): an in-memory Python dict
  `self.data` keyed by strings `"USER#<id>"`, `"PHOTO#<id>"`,
  `"COMMENT#<id>"`, `"SHARE_LINK#<id>"`.  Python dicts preserve insertion
  order and replace values in place, so the store is an association list
  with a replace-or-append insert.  The four key tags are pairwise
  non-overlapping prefixes, so the string keys are in bijection with the
  structured `MKey` type used here.

* `DynamoDBService` (`dynamodb_service.py`): a DynamoDB table with
  primary key (PK, SK) and two global secondary indexes GSI1/GSI2.
  Key strings such as `"PHOTO#<iso-timestamp>"` are modelled structurally;
  within a single query all compared sort keys share one literal tag, so
  DynamoDB's lexicographic byte order on the full strings coincides with
  the order on the embedded payload (ISO-8601 timestamps of a monotone
  clock are lexicographically monotone, and uuid identifiers are ASCII).

Time: every service method calls `datetime.now()`; the embedding passes
the current instant explicitly as `now : Nat` (microseconds, the
resolution of Python datetimes), with all `now()` calls inside one method
returning the same instant.  `usPerDay` is `timedelta(days=1)`.

Generated identifiers (`generate_uuid`, `str(uuid.uuid4())`) are passed
in as explicit arguments: uuid generation is an oracle producing fresh
names, so script-level well-formedness asks the supplied ids to be fresh.
-/

namespace ImageFlow

/-- Microseconds per day: `timedelta(days=1)` at Python datetime resolution. -/
def usPerDay : Nat := 86400000000

/-- Open string-keyed JSON-like mapping (`metadata` fields); the core passes
it through unvalidated, so an association list of strings suffices. -/
abbrev Metadata := List (String × String)

/-- The item stored by `MockDynamoDBService.create_user` (minus the constant
`entity_type` discriminator, which the `Entity` constructor carries).
`Option String` fields mirror `user_data.get(...)`, which yields `None`
when absent. -/
structure UserItem where
  user_id : String
  email : Option String
  first_name : Option String
  last_name : Option String
  profile_image_url : Option String
  created_at : Nat
  updated_at : Nat
deriving DecidableEq

/-- The item stored by `MockDynamoDBService.create_photo`. -/
structure PhotoItem where
  photo_id : String
  user_id : String
  title : String
  description : String
  file_path : String
  file_size : Nat
  content_type : String
  metadata : Metadata
  created_at : Nat
  updated_at : Nat
deriving DecidableEq

/-- The item stored by `MockDynamoDBService.create_comment`. -/
structure CommentItem where
  comment_id : String
  photo_id : String
  user_id : String
  content : String
  created_at : Nat
  updated_at : Nat
deriving DecidableEq

/-- The item stored by `MockDynamoDBService.create_shareable_link`. -/
structure LinkItem where
  link_id : String
  photo_id : String
  user_id : String
  expires_at : Nat
  access_count : Nat
  created_at : Nat
  updated_at : Nat
deriving DecidableEq

/-- A stored row, one constructor per `entity_type`. -/
inductive Entity where
  | user (u : UserItem)
  | photo (p : PhotoItem)
  | comment (c : CommentItem)
  | link (l : LinkItem)
deriving DecidableEq

/-- Structured form of the mock store's string keys `"USER#<id>"`,
`"PHOTO#<id>"`, `"COMMENT#<id>"`, `"SHARE_LINK#<id>"`.  The four tags are
pairwise non-overlapping string prefixes, so this encoding is injective and
`key.startswith("PHOTO#")` is exactly "the key is a `photoK`". -/
inductive MKey where
  | userK (id : String)
  | photoK (id : String)
  | commentK (id : String)
  | linkK (id : String)
deriving DecidableEq

/-- `item.get('user_id')`: every entity kind stores a `user_id` attribute. -/
def entUserId : Entity → String
  | .user u => u.user_id
  | .photo p => p.user_id
  | .comment c => c.user_id
  | .link l => l.user_id

/-- `item.get('photo_id')`: present on photos, comments and share links,
absent (`None`) on users. -/
def entPhotoId : Entity → Option String
  | .user _ => none
  | .photo p => some p.photo_id
  | .comment c => some c.photo_id
  | .link l => some l.photo_id

/-- `item['created_at']`: every entity kind stores it. -/
def entCreatedAt : Entity → Nat
  | .user u => u.created_at
  | .photo p => p.created_at
  | .comment c => c.created_at
  | .link l => l.created_at

/-- `item['updated_at']`. -/
def entUpdatedAt : Entity → Nat
  | .user u => u.updated_at
  | .photo p => p.updated_at
  | .comment c => c.updated_at
  | .link l => l.updated_at

/-- `key.startswith("PHOTO#")` on a mock store key. -/
def keyIsPhoto : MKey → Bool
  | .photoK _ => true
  | _ => false

/-- `key.startswith("COMMENT#")` on a mock store key. -/
def keyIsComment : MKey → Bool
  | .commentK _ => true
  | _ => false

section AssocStore

variable {κ α : Type} [DecidableEq κ]

/-- `d[k] = v` on a Python dict modelled as an insertion-ordered association
list: replace in place when the key is present, append otherwise. -/
def dictInsert (k : κ) (v : α) : List (κ × α) → List (κ × α)
  | [] => [(k, v)]
  | (k', v') :: rest =>
      if k' = k then (k, v) :: rest else (k', v') :: dictInsert k v rest

/-- `d.get(k)` on the association list. -/
def dictGet (k : κ) : List (κ × α) → Option α
  | [] => none
  | (k', v') :: rest => if k' = k then some v' else dictGet k rest

theorem dictGet_dictInsert_self (k : κ) (v : α) (s : List (κ × α)) :
    dictGet k (dictInsert k v s) = some v := by
  induction s with
  | nil => simp [dictInsert, dictGet]
  | cons hd tl ih =>
      obtain ⟨k', v'⟩ := hd
      by_cases h : k' = k <;> simp [dictInsert, dictGet, h, ih]

theorem dictGet_dictInsert_ne (k k' : κ) (v : α) (s : List (κ × α))
    (h : k' ≠ k) : dictGet k' (dictInsert k v s) = dictGet k' s := by
  induction s with
  | nil => simp [dictInsert, dictGet, Ne.symm h]
  | cons hd tl ih =>
      obtain ⟨k0, v0⟩ := hd
      by_cases h0 : k0 = k
      · subst h0
        simp [dictInsert, dictGet, Ne.symm h, ih]
      · simp only [dictInsert, h0, if_neg, not_false_iff]
        by_cases h1 : k0 = k' <;> simp [dictGet, h0, h1, ih]

/-- Inserting a fresh key appends the pair at the end (Python dicts add new
keys at the end of the iteration order). -/
theorem dictInsert_fresh (k : κ) (v : α) (s : List (κ × α))
    (h : dictGet k s = none) : dictInsert k v s = s ++ [(k, v)] := by
  induction s with
  | nil => simp [dictInsert]
  | cons hd tl ih =>
      obtain ⟨k0, v0⟩ := hd
      by_cases h0 : k0 = k
      · simp [dictGet, h0] at h
      · simp [dictGet, h0] at h
        simp [dictInsert, h0, ih h]

/-- Keys absent before an insert of a different key stay absent. -/
theorem dictGet_none_of_dictInsert (k k' : κ) (v : α) (s : List (κ × α))
    (hne : k' ≠ k) (h : dictGet k' s = none) :
    dictGet k' (dictInsert k v s) = none := by
  rw [dictGet_dictInsert_ne k k' v s hne]; exact h

end AssocStore

section PySort

variable {α β : Type}

/-- One step of a stable insertion sort: insert `a` before the first element
`b` with `le a b = false`.  With `le` the (reflexive, total) comparison used
by Python `list.sort`, this reproduces Python's stable ordering: an element
earlier in the original list stays before later elements with an equal key. -/
def ordIns (le : α → α → Bool) (a : α) : List α → List α
  | [] => [a]
  | b :: l => if le a b then a :: b :: l else b :: ordIns le a l

/-- Stable sort by `le` (model of Python `list.sort(key=...)`). -/
def sortL (le : α → α → Bool) : List α → List α
  | [] => []
  | a :: l => ordIns le a (sortL le l)

theorem ordIns_perm (le : α → α → Bool) (a : α) (l : List α) :
    List.Perm (ordIns le a l) (a :: l) := by
  induction l with
  | nil => simp [ordIns]
  | cons b l ih =>
      by_cases h : le a b
      · simp [ordIns, h]
      · simp only [ordIns, h, if_neg, Bool.false_eq_true, not_false_iff]
        exact (ih.cons b).trans (List.Perm.swap a b l)

theorem sortL_perm (le : α → α → Bool) (l : List α) :
    List.Perm (sortL le l) l := by
  induction l with
  | nil => simp [sortL]
  | cons a l ih =>
      exact (ordIns_perm le a (sortL le l)).trans (ih.cons a)

theorem sortL_length (le : α → α → Bool) (l : List α) :
    (sortL le l).length = l.length :=
  (sortL_perm le l).length_eq

theorem mem_ordIns (le : α → α → Bool) (a x : α) (l : List α) :
    x ∈ ordIns le a l ↔ x = a ∨ x ∈ l := by
  have := (ordIns_perm le a l).mem_iff (a := x)
  simpa using this

theorem mem_sortL (le : α → α → Bool) (x : α) (l : List α) :
    x ∈ sortL le l ↔ x ∈ l := (sortL_perm le l).mem_iff

theorem pairwise_ordIns (le : α → α → Bool) (a : α) (l : List α)
    (htot : ∀ x y, le x y = true ∨ le y x = true)
    (htrans : ∀ x y z, le x y = true → le y z = true → le x z = true)
    (h : l.Pairwise (fun x y => le x y = true)) :
    (ordIns le a l).Pairwise (fun x y => le x y = true) := by
  induction l with
  | nil => simp [ordIns]
  | cons b l ih =>
      rcases List.pairwise_cons.mp h with ⟨hb, hl⟩
      by_cases hab : le a b
      · simp only [ordIns, hab, if_pos]
        refine List.pairwise_cons.mpr ⟨?_, h⟩
        intro y hy
        rcases List.mem_cons.mp hy with rfl | hy
        · exact hab
        · exact htrans a b y hab (hb y hy)
      · simp only [ordIns, hab, if_neg, Bool.false_eq_true, not_false_iff]
        refine List.pairwise_cons.mpr ⟨?_, ih hl⟩
        intro y hy
        rcases (mem_ordIns le a y l).mp hy with rfl | hy
        · rcases htot y b with hyb | hby
          · cases hab hyb
          · exact hby
        · exact hb y hy

theorem pairwise_sortL (le : α → α → Bool) (l : List α)
    (htot : ∀ x y, le x y = true ∨ le y x = true)
    (htrans : ∀ x y z, le x y = true → le y z = true → le x z = true) :
    (sortL le l).Pairwise (fun x y => le x y = true) := by
  induction l with
  | nil => simp [sortL]
  | cons a l ih => exact pairwise_ordIns le a (sortL le l) htot htrans ih

/-- Stable sorts commute with `map` when the comparison agrees across the
map, elementwise on the list being sorted. -/
theorem ordIns_map (le₁ : α → α → Bool) (le₂ : β → β → Bool) (f : α → β)
    (a : α) (l : List α)
    (h : ∀ x ∈ l, le₂ (f a) (f x) = le₁ a x) :
    ordIns le₂ (f a) (l.map f) = (ordIns le₁ a l).map f := by
  induction l with
  | nil => simp [ordIns]
  | cons b l ih =>
      have hb : le₂ (f a) (f b) = le₁ a b := h b (by simp)
      by_cases hab : le₁ a b
      · simp [ordIns, hab, hb]
      · simp only [List.map_cons, ordIns, hb, hab, if_neg, Bool.false_eq_true,
          not_false_iff]
        rw [ih (fun x hx => h x (by simp [hx]))]

theorem sortL_map (le₁ : α → α → Bool) (le₂ : β → β → Bool) (f : α → β)
    (l : List α)
    (h : ∀ x ∈ l, ∀ y ∈ l, le₂ (f x) (f y) = le₁ x y) :
    sortL le₂ (l.map f) = (sortL le₁ l).map f := by
  induction l with
  | nil => simp [sortL]
  | cons a l ih =>
      simp only [List.map_cons, sortL]
      rw [ih (fun x hx y hy => h x (by simp [hx]) y (by simp [hy]))]
      exact ordIns_map le₁ le₂ f a (sortL le₁ l) (fun x hx =>
        h a (by simp) x (by simp [(mem_sortL le₁ x l).mp hx]))

/-- Python list slicing `xs[:limit]` for an arbitrary (possibly negative)
Python int `limit`: a nonnegative stop takes that many from the front, a
negative stop drops `-limit` elements from the end (clamped at zero). -/
def pyTake (limit : Int) (xs : List α) : List α :=
  if limit < 0 then xs.take (xs.length - (-limit).toNat) else xs.take limit.toNat

theorem pyTake_ofNat (n : Nat) (xs : List α) :
    pyTake (Int.ofNat n) xs = xs.take n := by
  simp [pyTake]

theorem pyTake_eq_take (limit : Int) (xs : List α) :
    ∃ n : Nat, pyTake limit xs = xs.take n := by
  unfold pyTake
  by_cases h : limit < 0
  · exact ⟨xs.length - (-limit).toNat, by simp [h]⟩
  · exact ⟨limit.toNat, by simp [h]⟩

end PySort

/-- Input of `create_user` (`user_data`): `Option` fields mirror
`user_data.get(...)`. -/
structure UserData where
  id : Option String
  email : Option String
  first_name : Option String
  last_name : Option String
  profile_image_url : Option String

/-- Input of `create_photo` (`photo_data`): `user_id` and `file_path` are
accessed with `photo_data[...]` (required), the rest with `.get` defaults. -/
structure PhotoData where
  user_id : String
  title : Option String
  description : Option String
  file_path : String
  file_size : Option Nat
  content_type : Option String
  metadata : Option Metadata

/-- Input of `create_comment` (`comment_data`): all three accessed with
`comment_data[...]`. -/
structure CommentData where
  photo_id : String
  user_id : String
  content : String

/-- Input of `create_shareable_link` (`link_data`): `expiration_days` is
read with `.get('expiration_days', 30)`.  The routers only reach this call
with a pydantic-validated integer in `[1, 365]`, so a `Nat` payload
suffices. -/
structure LinkData where
  photo_id : String
  user_id : String
  expiration_days : Option Nat

/-- The partial update dict `UserUpdate.dict(exclude_unset=True)` built in
`routers/auth.py`: each field is either absent from the dict (outer `none`)
or present with an optional string value (pydantic `Optional[str]`). -/
structure UserUpd where
  email : Option (Option String)
  first_name : Option (Option String)
  last_name : Option (Option String)
  profile_image_url : Option (Option String)

/-- The partial update dict `PhotoUpdate.dict(exclude_unset=True)` built in
`routers/photos.py`: at most `title`, `description`, `metadata`.  (Pydantic
also admits an explicit JSON null for a present field; that value level is
collapsed here since stored photo fields are plain strings and no claim
distinguishes it.) -/
structure PhotoUpd where
  title : Option String
  description : Option String
  metadata : Option Metadata

namespace Mock

/-- `MockDynamoDBService.self.data`: an insertion-ordered dict. -/
abbrev Store := List (MKey × Entity)

/-- `create_user` (`mock_service.py:24`): `user_id = user_data.get('id') or
generate_uuid()` — Python `or` falls through on `None` and on the empty
string.  `gen` is the `generate_uuid()` oracle value, `now` the
`datetime.now()` instant. -/
def create_user (d : UserData) (gen : String) (now : Nat) (s : Store) :
    Store × UserItem :=
  let uid := match d.id with
    | some i => if i = "" then gen else i
    | none => gen
  let item : UserItem :=
    { user_id := uid, email := d.email, first_name := d.first_name,
      last_name := d.last_name, profile_image_url := d.profile_image_url,
      created_at := now, updated_at := now }
  (dictInsert (.userK uid) (.user item) s, item)

/-- `get_user` (`mock_service.py:43`). -/
def get_user (uid : String) (s : Store) : Option Entity :=
  dictGet (.userK uid) s

/-- Merge of `UserUpdate` fields into a stored item by `dict.update`,
followed by the `updated_at` refresh.  A non-user entity under a `USER#`
key is unreachable from any store this service builds, and the merge is a
no-op there. -/
def applyUserUpd (u : UserUpd) (now : Nat) : Entity → Entity
  | .user u0 => .user { u0 with
      email := u.email.getD u0.email,
      first_name := u.first_name.getD u0.first_name,
      last_name := u.last_name.getD u0.last_name,
      profile_image_url := u.profile_image_url.getD u0.profile_image_url,
      updated_at := now }
  | e => e

/-- `update_user` (`mock_service.py:47`): merge and refresh `updated_at`
when the key exists, raise `KeyError` (modelled as `none`) otherwise. -/
def update_user (uid : String) (u : UserUpd) (now : Nat) (s : Store) :
    Option (Store × Entity) :=
  match dictGet (.userK uid) s with
  | some e =>
      let e2 := applyUserUpd u now e
      some (dictInsert (.userK uid) e2 s, e2)
  | none => none

/-- `create_photo` (`mock_service.py:57`): `pid` is the `generate_uuid()`
oracle value. -/
def create_photo (d : PhotoData) (pid : String) (now : Nat) (s : Store) :
    Store × PhotoItem :=
  let item : PhotoItem :=
    { photo_id := pid, user_id := d.user_id, title := d.title.getD "",
      description := d.description.getD "", file_path := d.file_path,
      file_size := d.file_size.getD 0,
      content_type := d.content_type.getD "",
      metadata := d.metadata.getD [], created_at := now, updated_at := now }
  (dictInsert (.photoK pid) (.photo item) s, item)

/-- `get_photo` (`mock_service.py:79`). -/
def get_photo (pid : String) (s : Store) : Option Entity :=
  dictGet (.photoK pid) s

/-- Merge of `PhotoUpdate` fields into a stored item by `dict.update`,
followed by the `updated_at` refresh; no-op on the unreachable non-photo
case. -/
def applyPhotoUpd (u : PhotoUpd) (now : Nat) : Entity → Entity
  | .photo p0 => .photo { p0 with
      title := u.title.getD p0.title,
      description := u.description.getD p0.description,
      metadata := u.metadata.getD p0.metadata,
      updated_at := now }
  | e => e

/-- `update_photo` (`mock_service.py:83`). -/
def update_photo (pid : String) (u : PhotoUpd) (now : Nat) (s : Store) :
    Option (Store × Entity) :=
  match dictGet (.photoK pid) s with
  | some e =>
      let e2 := applyPhotoUpd u now e
      some (dictInsert (.photoK pid) e2 s, e2)
  | none => none

/-- Comparison used by `photos.sort(key=lambda x: x['created_at'],
reverse=True)`: stable descending by `created_at`. -/
def descByCreated (a b : Entity) : Bool := entCreatedAt b ≤ entCreatedAt a

/-- Comparison used by `comments.sort(key=lambda x: x['created_at'])`:
stable ascending by `created_at`. -/
def ascByCreated (a b : Entity) : Bool := entCreatedAt a ≤ entCreatedAt b

/-- `list_user_photos` (`mock_service.py:92`): collect items whose key
starts with `PHOTO#` and whose `user_id` matches, sort by `created_at`
descending, slice to `limit` (a plain Python int). -/
def list_user_photos (uid : String) (limit : Int) (s : Store) :
    List Entity :=
  pyTake limit (sortL descByCreated
    ((s.filter (fun kv => keyIsPhoto kv.1 && (entUserId kv.2 == uid))).map
      Prod.snd))

/-- `list_recent_photos` (`mock_service.py:104`). -/
def list_recent_photos (limit : Int) (s : Store) : List Entity :=
  pyTake limit (sortL descByCreated
    ((s.filter (fun kv => keyIsPhoto kv.1)).map Prod.snd))

/-- `create_comment` (`mock_service.py:116`). -/
def create_comment (d : CommentData) (cid : String) (now : Nat) (s : Store) :
    Store × CommentItem :=
  let item : CommentItem :=
    { comment_id := cid, photo_id := d.photo_id, user_id := d.user_id,
      content := d.content, created_at := now, updated_at := now }
  (dictInsert (.commentK cid) (.comment item) s, item)

/-- `list_photo_comments` (`mock_service.py:134`): collect items whose key
starts with `COMMENT#` and whose `photo_id` matches, sort by `created_at`
ascending, slice to `limit`. -/
def list_photo_comments (pid : String) (limit : Int) (s : Store) :
    List Entity :=
  pyTake limit (sortL ascByCreated
    ((s.filter (fun kv =>
        keyIsComment kv.1 && (entPhotoId kv.2 == some pid))).map Prod.snd))

/-- `create_shareable_link` (`mock_service.py:147`): `expires_at` comes from
`calculate_expiration_date(expiration_days) = datetime.now() +
timedelta(days=expiration_days)` (`utils/helpers.py:42`), taken at the same
call instant `now`. -/
def create_shareable_link (d : LinkData) (lid : String) (now : Nat)
    (s : Store) : Store × LinkItem :=
  let expiration_days := d.expiration_days.getD 30
  let item : LinkItem :=
    { link_id := lid, photo_id := d.photo_id, user_id := d.user_id,
      expires_at := now + expiration_days * usPerDay, access_count := 0,
      created_at := now, updated_at := now }
  (dictInsert (.linkK lid) (.link item) s, item)

/-- `get_shareable_link` (`mock_service.py:170`): fetch, then the expiry
check `if datetime.now() > expires_at: return None`.  A non-link entity
under a `SHARE_LINK#` key is unreachable; reading its `expires_at` would
raise, and the branch is modelled as absent. -/
def get_shareable_link (lid : String) (now : Nat) (s : Store) :
    Option Entity :=
  match dictGet (.linkK lid) s with
  | none => none
  | some (.link l) => if now > l.expires_at then none else some (.link l)
  | some _ => none

/-- `increment_link_access` (`mock_service.py:183`): bump `access_count`
and refresh `updated_at` when the key exists, do nothing otherwise.  (The
unreachable non-link case is a no-op.) -/
def increment_link_access (lid : String) (now : Nat) (s : Store) : Store :=
  match dictGet (.linkK lid) s with
  | some (.link l) =>
      dictInsert (.linkK lid)
        (.link { l with access_count := l.access_count + 1,
                        updated_at := now }) s
  | _ => s

end Mock

/-- Lexicographic order on char lists by code point; DynamoDB compares
string keys by UTF-8 bytes, which agrees with code-point order on the
ASCII identifiers this schema stores. -/
def charListLe : List Char → List Char → Bool
  | [], _ => true
  | _ :: _, [] => false
  | a :: as, b :: bs =>
      if a.toNat < b.toNat then true
      else if b.toNat < a.toNat then false
      else charListLe as bs

/-- String comparison standing in for DynamoDB sort-key byte order. -/
def strLe (a b : String) : Bool := charListLe a.data b.data

theorem charListLe_total (a b : List Char) :
    charListLe a b = true ∨ charListLe b a = true := by
  induction a generalizing b with
  | nil => left; rfl
  | cons x xs ih =>
      cases b with
      | nil => right; rfl
      | cons y ys =>
          rcases Nat.lt_trichotomy x.toNat y.toNat with h | h | h
          · left; simp [charListLe, h]
          · rcases ih ys with hle | hle
            · left; simp [charListLe, h, Nat.lt_irrefl, hle]
            · right; simp [charListLe, h.symm, Nat.lt_irrefl, hle]
          · right; simp [charListLe, h]

theorem charListLe_trans (a b c : List Char)
    (h1 : charListLe a b = true) (h2 : charListLe b c = true) :
    charListLe a c = true := by
  induction a generalizing b c with
  | nil => rfl
  | cons x xs ih =>
      cases b with
      | nil => simp [charListLe] at h1
      | cons y ys =>
          cases c with
          | nil => simp [charListLe] at h2
          | cons z zs =>
              simp only [charListLe] at h1 h2 ⊢
              rcases Nat.lt_trichotomy x.toNat y.toNat with hxy | hxy | hxy
              · rcases Nat.lt_trichotomy y.toNat z.toNat with hyz | hyz | hyz
                · simp [Nat.lt_trans hxy hyz]
                · simp [hyz ▸ hxy]
                · simp [hyz, Nat.lt_asymm hyz, Nat.lt_irrefl] at h2
              · rcases Nat.lt_trichotomy y.toNat z.toNat with hyz | hyz | hyz
                · simp [hxy ▸ hyz]
                · have hxz : x.toNat = z.toNat := hxy.trans hyz
                  have h1' : charListLe xs ys = true := by
                    simpa [hxy, Nat.lt_irrefl] using h1
                  have h2' : charListLe ys zs = true := by
                    simpa [hyz, Nat.lt_irrefl] using h2
                  simp [hxz, Nat.lt_irrefl, ih ys zs h1' h2']
                · simp [hyz, Nat.lt_asymm hyz, Nat.lt_irrefl] at h2
              · simp [hxy, Nat.lt_asymm hxy, Nat.lt_irrefl] at h1

namespace Dyn

/-- Structured `GSI1PK` values: `"USERS"` on user rows, `"USER#<id>"` on
photo and comment rows, `"PHOTO#<id>"` on share-link rows.  The literal
shapes are pairwise distinct strings, so the constructors are faithfully
disjoint. -/
inductive G1PK where
  | usersG
  | userG (uid : String)
  | photoG (pid : String)
deriving DecidableEq

/-- Structured `GSI1SK` values: a bare ISO timestamp on user rows,
`"PHOTO#<ts>"`, `"COMMENT#<ts>"`, `"LINK#<ts>"` on the rest.  Each query
below filters to a single shape before ordering, and within one shape the
string order is the timestamp order. -/
inductive G1SK where
  | tsG (ts : Nat)
  | photoTsG (ts : Nat)
  | commentTsG (ts : Nat)
  | linkTsG (ts : Nat)
deriving DecidableEq

/-- `begins_with(GSI1SK, 'PHOTO#')`. -/
def g1skIsPhoto : G1SK → Bool
  | .photoTsG _ => true
  | _ => false

/-- Timestamp payload of a `GSI1SK` value. -/
def g1skTs : G1SK → Nat
  | .tsG n => n
  | .photoTsG n => n
  | .commentTsG n => n
  | .linkTsG n => n

/-- One DynamoDB item of the single-table schema: main key (PK, SK), the
GSI1 key, the GSI2 key (present exactly on photo rows, with the constant
partition `"PHOTOS"` represented by `isSome`), the TTL attribute of
share-link rows, and the entity attributes. -/
structure Row where
  pk : MKey
  sk : MKey
  gsi1pk : G1PK
  gsi1sk : G1SK
  gsi2sk : Option Nat
  ttl_epoch : Option Nat
  payload : Entity
deriving DecidableEq

abbrev Table := List Row

/-- `table.put_item(Item=item)`: overwrite the row with the same primary
(PK, SK) pair, create it otherwise.  A real table is unordered; list
position only feeds the tie-break of the deterministic query model below,
and the equivalence theorems assume distinct timestamps so that ties never
decide. -/
def put_item (r : Row) : Table → Table
  | [] => [r]
  | r0 :: rest =>
      if r0.pk = r.pk ∧ r0.sk = r.sk then r :: rest
      else r0 :: put_item r rest

/-- `table.get_item(Key={'PK': pk, 'SK': sk})`. -/
def get_item (pk sk : MKey) : Table → Option Row
  | [] => none
  | r :: rest => if r.pk = pk ∧ r.sk = sk then some r else get_item pk sk rest

/-- `create_user` (`dynamodb_service.py:150`): same attribute dict as the
mock plus `PK = SK = "USER#<id>"`, `GSI1PK = "USERS"`, `GSI1SK = <ts>`.
The `or` fallback on `user_data.get('id')` is as in the mock. -/
def create_user (d : UserData) (gen : String) (now : Nat) (t : Table) :
    Table × Row :=
  let uid := match d.id with
    | some i => if i = "" then gen else i
    | none => gen
  let item : UserItem :=
    { user_id := uid, email := d.email, first_name := d.first_name,
      last_name := d.last_name, profile_image_url := d.profile_image_url,
      created_at := now, updated_at := now }
  let r : Row :=
    { pk := .userK uid, sk := .userK uid, gsi1pk := .usersG,
      gsi1sk := .tsG now, gsi2sk := none, ttl_epoch := none,
      payload := .user item }
  (put_item r t, r)

/-- `create_photo` (`dynamodb_service.py:209`): `GSI1PK = "USER#<owner>"`,
`GSI1SK = "PHOTO#<ts>"`, `GSI2PK = "PHOTOS"`, `GSI2SK = <ts>`. -/
def create_photo (d : PhotoData) (pid : String) (now : Nat) (t : Table) :
    Table × Row :=
  let item : PhotoItem :=
    { photo_id := pid, user_id := d.user_id, title := d.title.getD "",
      description := d.description.getD "", file_path := d.file_path,
      file_size := d.file_size.getD 0,
      content_type := d.content_type.getD "",
      metadata := d.metadata.getD [], created_at := now, updated_at := now }
  let r : Row :=
    { pk := .photoK pid, sk := .photoK pid, gsi1pk := .userG d.user_id,
      gsi1sk := .photoTsG now, gsi2sk := some now, ttl_epoch := none,
      payload := .photo item }
  (put_item r t, r)

/-- `create_comment` (`dynamodb_service.py:274`): co-located under the
photo partition, `PK = "PHOTO#<photo_id>"`, `SK = "COMMENT#<comment_id>"`,
`GSI1PK = "USER#<author>"`, `GSI1SK = "COMMENT#<ts>"`. -/
def create_comment (d : CommentData) (cid : String) (now : Nat)
    (t : Table) : Table × Row :=
  let item : CommentItem :=
    { comment_id := cid, photo_id := d.photo_id, user_id := d.user_id,
      content := d.content, created_at := now, updated_at := now }
  let r : Row :=
    { pk := .photoK d.photo_id, sk := .commentK cid,
      gsi1pk := .userG d.user_id, gsi1sk := .commentTsG now,
      gsi2sk := none, ttl_epoch := none, payload := .comment item }
  (put_item r t, r)

/-- `create_shareable_link` (`dynamodb_service.py:312`): `expires_at =
datetime.now() + timedelta(days=expiration_days)` at the same call
instant; `ttl_epoch = int(expires_at.timestamp())` (seconds). -/
def create_shareable_link (d : LinkData) (lid : String) (now : Nat)
    (t : Table) : Table × Row :=
  let expiration_days := d.expiration_days.getD 30
  let expires := now + expiration_days * usPerDay
  let item : LinkItem :=
    { link_id := lid, photo_id := d.photo_id, user_id := d.user_id,
      expires_at := expires, access_count := 0,
      created_at := now, updated_at := now }
  let r : Row :=
    { pk := .linkK lid, sk := .linkK lid, gsi1pk := .photoG d.photo_id,
      gsi1sk := .linkTsG now, gsi2sk := none,
      ttl_epoch := some (expires / 1000000), payload := .link item }
  (put_item r t, r)

/-- Stable descending order on the GSI1 sort key's timestamp (the query
below filters to a single key shape first, where full-string order is
timestamp order).  `ScanIndexForward=False` returns descending key order. -/
def descByG1 (a b : Row) : Bool := g1skTs b.gsi1sk ≤ g1skTs a.gsi1sk

/-- `list_user_photos` (`dynamodb_service.py:249`): GSI1 query with
`GSI1PK = "USER#<uid>" AND begins_with(GSI1SK, 'PHOTO#')`, descending,
`Limit=limit`. -/
def list_user_photos (uid : String) (limit : Nat) (t : Table) : List Row :=
  (sortL descByG1
    (t.filter (fun r => r.gsi1pk = G1PK.userG uid ∧ g1skIsPhoto r.gsi1sk))).take
    limit

/-- Stable descending order on GSI2SK (a bare timestamp). -/
def descByG2 (a b : Row) : Bool := b.gsi2sk.getD 0 ≤ a.gsi2sk.getD 0

/-- `list_recent_photos` (`dynamodb_service.py:261`): GSI2 query with
`GSI2PK = 'PHOTOS'` (exactly the rows carrying a GSI2 key), descending,
`Limit=limit`. -/
def list_recent_photos (limit : Nat) (t : Table) : List Row :=
  (sortL descByG2 (t.filter (fun r => r.gsi2sk.isSome))).take limit

/-- Main sort key payload of a comment row: `SK = "COMMENT#<comment_id>"`,
so the order within the filtered set is string order on `comment_id`. -/
def skCommentId : MKey → String
  | .commentK c => c
  | _ => ""

/-- Ascending main-key order on comment rows: DynamoDB byte order of
`"COMMENT#<comment_id>"`, i.e. string order on the comment id — not
`created_at` order. -/
def ascBySkId (a b : Row) : Bool := strLe (skCommentId a.sk) (skCommentId b.sk)

/-- `list_photo_comments` (`dynamodb_service.py:300`): main-table query
with `PK = "PHOTO#<pid>" AND begins_with(SK, 'COMMENT#')`, ascending,
`Limit=limit`. -/
def list_photo_comments (pid : String) (limit : Nat) (t : Table) :
    List Row :=
  (sortL ascBySkId
    (t.filter (fun r => r.pk = MKey.photoK pid ∧ keyIsComment r.sk))).take
    limit

/-- `get_shareable_link` (`dynamodb_service.py:347`): `get_item` then the
same `datetime.now() > expires_at` check as the mock. -/
def get_shareable_link (lid : String) (now : Nat) (t : Table) :
    Option Row :=
  match get_item (.linkK lid) (.linkK lid) t with
  | none => none
  | some r =>
      match r.payload with
      | .link l => if now > l.expires_at then none else some r
      | _ => none

end Dyn

namespace DynU

/-- Attribute map of a user row in the durable table, every attribute
optional (a DynamoDB item holds only the attributes actually written).
The projection to the user slice of the table (keys `PK = SK =
"USER#<id>"`, carried here as the bare id) is sound because
`update_user`/`create_user`/`get_user` only ever address such keys. -/
structure UAttrs where
  user_id : Option String
  email : Option (Option String)
  first_name : Option (Option String)
  last_name : Option (Option String)
  profile_image_url : Option (Option String)
  created_at : Option Nat
  updated_at : Option Nat
  gsi1sk : Option Nat
deriving DecidableEq

abbrev UTable := List (String × UAttrs)

/-- `DynamoDBService.create_user` (`dynamodb_service.py:150`) writes the
full item. -/
def create_user (d : UserData) (gen : String) (now : Nat) (t : UTable) :
    UTable × UAttrs :=
  let uid := match d.id with
    | some i => if i = "" then gen else i
    | none => gen
  let a : UAttrs :=
    { user_id := some uid, email := some d.email,
      first_name := some d.first_name, last_name := some d.last_name,
      profile_image_url := some d.profile_image_url,
      created_at := some now, updated_at := some now, gsi1sk := some now }
  (dictInsert uid a t, a)

/-- `SET` application of the update expression built by `update_user`:
one `field = :value` clause per key of `updates`, plus the always-present
`updated_at` clause. -/
def applySet (u : UserUpd) (now : Nat) (a : UAttrs) : UAttrs :=
  { a with
    email := match u.email with | some v => some v | none => a.email,
    first_name :=
      match u.first_name with | some v => some v | none => a.first_name,
    last_name :=
      match u.last_name with | some v => some v | none => a.last_name,
    profile_image_url :=
      match u.profile_image_url with
        | some v => some v | none => a.profile_image_url,
    updated_at := some now }

/-- The item with no attributes (what an `UpdateItem` on an absent key
starts from, beyond the key itself). -/
def emptyAttrs : UAttrs :=
  { user_id := none, email := none, first_name := none, last_name := none,
    profile_image_url := none, created_at := none, updated_at := none,
    gsi1sk := none }

/-- `DynamoDBService.update_user` (`dynamodb_service.py:185`): an
`UpdateItem` with a `SET` expression and no `ConditionExpression`.  Per
the DynamoDB contract, `UpdateItem` "edits an existing item's attributes,
or adds a new item to the table if it does not already exist": on an
absent key it creates the item from the key plus the `SET` clauses, and
it never signals not-found.  `ReturnValues='ALL_NEW'` returns the
resulting attributes. -/
def update_user (uid : String) (u : UserUpd) (now : Nat) (t : UTable) :
    UTable × UAttrs :=
  match dictGet uid t with
  | some a =>
      let a2 := applySet u now a
      (dictInsert uid a2 t, a2)
  | none =>
      let a2 := applySet u now emptyAttrs
      (dictInsert uid a2 t, a2)

end DynU

/-- One create operation, with the generated identifier and the
`datetime.now()` instant made explicit, applied identically to both
backends (claim C1 quantifies over create/list sequences). -/
inductive COp where
  | cUser (d : UserData) (gen : String)
  | cPhoto (d : PhotoData) (pid : String)
  | cComment (d : CommentData) (cid : String)
  | cLink (d : LinkData) (lid : String)

/-- The mock store key a create operation writes. -/
def copKey : COp → Mock.Store → MKey
  | .cUser d gen, _ =>
      .userK (match d.id with
        | some i => if i = "" then gen else i
        | none => gen)
  | .cPhoto _ pid, _ => .photoK pid
  | .cComment _ cid, _ => .commentK cid
  | .cLink _ lid, _ => .linkK lid

/-- Run one create on the mock backend. -/
def mstepC (op : COp) (now : Nat) (s : Mock.Store) : Mock.Store :=
  match op with
  | .cUser d gen => (Mock.create_user d gen now s).1
  | .cPhoto d pid => (Mock.create_photo d pid now s).1
  | .cComment d cid => (Mock.create_comment d cid now s).1
  | .cLink d lid => (Mock.create_shareable_link d lid now s).1

/-- Run one create on the durable backend. -/
def dstepC (op : COp) (now : Nat) (t : Dyn.Table) : Dyn.Table :=
  match op with
  | .cUser d gen => (Dyn.create_user d gen now t).1
  | .cPhoto d pid => (Dyn.create_photo d pid now t).1
  | .cComment d cid => (Dyn.create_comment d cid now t).1
  | .cLink d lid => (Dyn.create_shareable_link d lid now t).1

/-- Run a timed create script on the mock backend. -/
def mrunC : List (COp × Nat) → Mock.Store → Mock.Store
  | [], s => s
  | (op, now) :: rest, s => mrunC rest (mstepC op now s)

/-- Run the same script on the durable backend. -/
def drunC : List (COp × Nat) → Dyn.Table → Dyn.Table
  | [], t => t
  | (op, now) :: rest, t => drunC rest (dstepC op now t)

/-- Well-formed create script: every generated/supplied identifier is
fresh for the store it is applied to (the uuid oracle never collides, and
`create_user` is reached only through the get-or-create guard of
`routers/auth.py`), and the call instants are strictly increasing (the
wall clock moves between calls, so ISO timestamps are distinct — real
DynamoDB leaves the relative order of equal index keys unspecified, and
the deterministic model below is faithful only away from such ties). -/
def ScriptWF : Nat → Mock.Store → List (COp × Nat) → Prop
  | _, _, [] => True
  | bound, s, (op, now) :: rest =>
      bound < now ∧ dictGet (copKey op s) s = none ∧
        ScriptWF now (mstepC op now s) rest

/-- The mock store key under which this service files an entity (each
`create_*` stores the item under the tag of its own generated id). -/
def entityKey : Entity → MKey
  | .user u => .userK u.user_id
  | .photo p => .photoK p.photo_id
  | .comment c => .commentK c.comment_id
  | .link l => .linkK l.link_id

/-- Every mock store reachable from empty files each item under its own
id's key. -/
def KeysMatch (s : Mock.Store) : Prop :=
  ∀ kv ∈ s, kv.1 = entityKey kv.2

/-- The durable-table row that corresponds to a mock store entry: the same
entity attributes plus the derived key and index attributes
(`dynamodb_service.py` computes them from the same inputs its `create_*`
shares with the mock). -/
def enrich (kv : MKey × Entity) : Dyn.Row :=
  match kv.2 with
  | .user u =>
      { pk := .userK u.user_id, sk := .userK u.user_id,
        gsi1pk := .usersG, gsi1sk := .tsG u.created_at, gsi2sk := none,
        ttl_epoch := none, payload := .user u }
  | .photo p =>
      { pk := .photoK p.photo_id, sk := .photoK p.photo_id,
        gsi1pk := .userG p.user_id, gsi1sk := .photoTsG p.created_at,
        gsi2sk := some p.created_at, ttl_epoch := none,
        payload := .photo p }
  | .comment c =>
      { pk := .photoK c.photo_id, sk := .commentK c.comment_id,
        gsi1pk := .userG c.user_id, gsi1sk := .commentTsG c.created_at,
        gsi2sk := none, ttl_epoch := none, payload := .comment c }
  | .link l =>
      { pk := .linkK l.link_id, sk := .linkK l.link_id,
        gsi1pk := .photoG l.photo_id, gsi1sk := .linkTsG l.created_at,
        gsi2sk := none, ttl_epoch := some (l.expires_at / 1000000),
        payload := .link l }

theorem dictGet_eq_none_forall {κ α : Type} [DecidableEq κ] (k : κ)
    (s : List (κ × α)) (h : dictGet k s = none) :
    ∀ kv ∈ s, kv.1 ≠ k := by
  induction s with
  | nil => intro kv hkv; cases hkv
  | cons hd tl ih =>
      obtain ⟨k0, v0⟩ := hd
      by_cases h0 : k0 = k
      · simp [dictGet, h0] at h
      · simp only [dictGet, h0, if_neg, not_false_iff] at h
        intro kv hkv
        rcases List.mem_cons.mp hkv with rfl | hkv
        · exact h0
        · exact ih h kv hkv

theorem put_item_fresh (r : Dyn.Row) (t : Dyn.Table)
    (h : ∀ r0 ∈ t, ¬(r0.pk = r.pk ∧ r0.sk = r.sk)) :
    Dyn.put_item r t = t ++ [r] := by
  induction t with
  | nil => rfl
  | cons r0 rest ih =>
      have h0 := h r0 (by simp)
      simp only [Dyn.put_item, h0, if_neg, not_false_iff]
      rw [ih (fun r1 hr1 => h r1 (by simp [hr1]))]
      rfl

/-- A create step keeps the key discipline. -/
theorem keysMatch_mstepC (op : COp) (now : Nat) (s : Mock.Store)
    (h : KeysMatch s) : KeysMatch (mstepC op now s) := by
  have core : ∀ (k : MKey) (e : Entity), k = entityKey e →
      KeysMatch (dictInsert k e s) := by
    intro k e hke kv hkv
    induction s with
    | nil =>
        simp only [dictInsert] at hkv
        rcases List.mem_singleton.mp hkv with rfl
        exact hke
    | cons hd tl ih =>
        obtain ⟨k0, v0⟩ := hd
        by_cases h0 : k0 = k
        · simp only [dictInsert, h0, if_pos] at hkv
          rcases List.mem_cons.mp hkv with rfl | hkv
          · exact hke
          · exact h kv (by simp [hkv])
        · simp only [dictInsert, h0, if_neg, not_false_iff] at hkv
          rcases List.mem_cons.mp hkv with rfl | hkv
          · exact h (k0, v0) (by simp)
          · exact ih (fun kv2 hkv2 => h kv2 (by simp [hkv2])) hkv
  cases op with
  | cUser d gen => exact core _ _ rfl
  | cPhoto d pid => exact core _ _ rfl
  | cComment d cid => exact core _ _ rfl
  | cLink d lid => exact core _ _ rfl

/-- One fresh create commutes with `enrich`: the durable backend appends
exactly the enriched row the mock appends. -/
theorem dstepC_enrich (op : COp) (now : Nat) (s : Mock.Store)
    (hKM : KeysMatch s) (hfresh : dictGet (copKey op s) s = none) :
    dstepC op now (s.map enrich) = (mstepC op now s).map enrich := by
  have keyNe := dictGet_eq_none_forall (copKey op s) s hfresh
  cases op with
  | cUser d gen =>
      set uid := (match d.id with
        | some i => if i = "" then gen else i
        | none => gen) with huid
      have hput : ∀ r0 ∈ s.map enrich,
          ¬(r0.pk = MKey.userK uid ∧ r0.sk = MKey.userK uid) := by
        intro r0 hr0 ⟨hpk, _⟩
        rcases List.mem_map.mp hr0 with ⟨kv, hkv, rfl⟩
        obtain ⟨k, e⟩ := kv
        cases e with
        | user u =>
            have hid : u.user_id = uid := by simpa [enrich] using hpk
            have hk2 : k = entityKey (Entity.user u) := hKM (k, .user u) hkv
            have hk : k = MKey.userK uid := by
              simp only [entityKey] at hk2; rw [hk2, hid]
            exact keyNe (k, .user u) hkv (by simpa [copKey, ← huid] using hk)
        | photo p => simp [enrich] at hpk
        | comment c => simp [enrich] at hpk
        | link l => simp [enrich] at hpk
      simp only [mstepC, dstepC, Mock.create_user, Dyn.create_user]
      rw [put_item_fresh _ _ hput,
        dictInsert_fresh _ _ _ (by simpa [copKey, ← huid] using hfresh)]
      simp [enrich]
  | cPhoto d pid =>
      have hput : ∀ r0 ∈ s.map enrich,
          ¬(r0.pk = MKey.photoK pid ∧ r0.sk = MKey.photoK pid) := by
        intro r0 hr0 ⟨hpk, hsk⟩
        rcases List.mem_map.mp hr0 with ⟨kv, hkv, rfl⟩
        obtain ⟨k, e⟩ := kv
        cases e with
        | user u => simp [enrich] at hpk
        | photo p =>
            have hid : p.photo_id = pid := by simpa [enrich] using hpk
            have hk2 : k = entityKey (Entity.photo p) := hKM (k, .photo p) hkv
            have hk : k = MKey.photoK pid := by
              simp only [entityKey] at hk2; rw [hk2, hid]
            exact keyNe (k, .photo p) hkv (by simpa [copKey] using hk)
        | comment c => simp [enrich] at hsk
        | link l => simp [enrich] at hpk
      simp only [mstepC, dstepC, Mock.create_photo, Dyn.create_photo]
      rw [put_item_fresh _ _ hput,
        dictInsert_fresh _ _ _ (by simpa [copKey] using hfresh)]
      simp [enrich]
  | cComment d cid =>
      have hput : ∀ r0 ∈ s.map enrich,
          ¬(r0.pk = MKey.photoK d.photo_id ∧ r0.sk = MKey.commentK cid) := by
        intro r0 hr0 ⟨_, hsk⟩
        rcases List.mem_map.mp hr0 with ⟨kv, hkv, rfl⟩
        obtain ⟨k, e⟩ := kv
        cases e with
        | user u => simp [enrich] at hsk
        | photo p => simp [enrich] at hsk
        | comment c =>
            have hid : c.comment_id = cid := by simpa [enrich] using hsk
            have hk2 : k = entityKey (Entity.comment c) :=
              hKM (k, .comment c) hkv
            have hk : k = MKey.commentK cid := by
              simp only [entityKey] at hk2; rw [hk2, hid]
            exact keyNe (k, .comment c) hkv (by simpa [copKey] using hk)
        | link l => simp [enrich] at hsk
      simp only [mstepC, dstepC, Mock.create_comment, Dyn.create_comment]
      rw [put_item_fresh _ _ hput,
        dictInsert_fresh _ _ _ (by simpa [copKey] using hfresh)]
      simp [enrich]
  | cLink d lid =>
      have hput : ∀ r0 ∈ s.map enrich,
          ¬(r0.pk = MKey.linkK lid ∧ r0.sk = MKey.linkK lid) := by
        intro r0 hr0 ⟨hpk, _⟩
        rcases List.mem_map.mp hr0 with ⟨kv, hkv, rfl⟩
        obtain ⟨k, e⟩ := kv
        cases e with
        | user u => simp [enrich] at hpk
        | photo p => simp [enrich] at hpk
        | comment c => simp [enrich] at hpk
        | link l =>
            have hid : l.link_id = lid := by simpa [enrich] using hpk
            have hk2 : k = entityKey (Entity.link l) := hKM (k, .link l) hkv
            have hk : k = MKey.linkK lid := by
              simp only [entityKey] at hk2; rw [hk2, hid]
            exact keyNe (k, .link l) hkv (by simpa [copKey] using hk)
      simp only [mstepC, dstepC, Mock.create_shareable_link,
        Dyn.create_shareable_link]
      rw [put_item_fresh _ _ hput,
        dictInsert_fresh _ _ _ (by simpa [copKey] using hfresh)]
      simp [enrich]

/-- The refinement invariant over a whole well-formed create script: the
durable table stays the enrichment of the mock store. -/
theorem drunC_enrich (cs : List (COp × Nat)) : ∀ (bound : Nat)
    (s : Mock.Store), KeysMatch s → ScriptWF bound s cs →
    KeysMatch (mrunC cs s) ∧
      drunC cs (s.map enrich) = (mrunC cs s).map enrich := by
  induction cs with
  | nil => intro bound s hKM _; exact ⟨hKM, rfl⟩
  | cons hd rest ih =>
      obtain ⟨op, now⟩ := hd
      intro bound s hKM hwf
      obtain ⟨_, hfresh, hwf'⟩ := hwf
      have hKM' := keysMatch_mstepC op now s hKM
      have hstep := dstepC_enrich op now s hKM hfresh
      have := ih now (mstepC op now s) hKM' hwf'
      exact ⟨this.1, by simpa [mrunC, drunC, hstep] using this.2⟩

theorem payload_enrich (kv : MKey × Entity) : (enrich kv).payload = kv.2 := by
  obtain ⟨k, e⟩ := kv; cases e <;> rfl

/-- Core of the query equivalence: when the durable filter agrees with the
mock filter through `enrich` and the durable comparison agrees with the
mock comparison on the filtered entries, the durable query is the mock
pipeline up to the payload projection. -/
theorem queryEquiv (mcond : MKey × Entity → Bool) (dcond : Dyn.Row → Bool)
    (mle : Entity → Entity → Bool) (dle : Dyn.Row → Dyn.Row → Bool)
    (s : Mock.Store) (lim : Nat)
    (hcond : ∀ kv ∈ s, dcond (enrich kv) = mcond kv)
    (hle : ∀ x ∈ s.filter mcond, ∀ y ∈ s.filter mcond,
      dle (enrich x) (enrich y) = mle x.2 y.2) :
    ((sortL dle ((s.map enrich).filter dcond)).take lim).map Dyn.Row.payload
      = (sortL mle ((s.filter mcond).map Prod.snd)).take lim := by
  have hfil : (s.map enrich).filter dcond = (s.filter mcond).map enrich := by
    rw [List.filter_map]
    congr 1
    exact List.filter_congr (fun kv hkv => hcond kv hkv)
  rw [hfil]
  rw [sortL_map (fun x y => mle x.2 y.2) dle enrich (s.filter mcond) hle]
  rw [sortL_map (fun x y => mle x.2 y.2) mle Prod.snd (s.filter mcond)
    (fun x _ y _ => rfl)]
  rw [← List.map_take, ← List.map_take, List.map_map]
  congr 1
  funext kv
  exact payload_enrich kv

/-- Filter agreement for `list_user_photos` under the key discipline. -/
theorem cond_user_photos (uid : String) (s : Mock.Store) (hKM : KeysMatch s) :
    ∀ kv ∈ s,
      (decide ((enrich kv).gsi1pk = Dyn.G1PK.userG uid ∧
        Dyn.g1skIsPhoto (enrich kv).gsi1sk = true))
        = (keyIsPhoto kv.1 && (entUserId kv.2 == uid)) := by
  intro kv hkv
  obtain ⟨k, e⟩ := kv
  have hk := hKM (k, e) hkv
  simp only at hk
  cases e with
  | user u => subst hk; simp [enrich, entityKey, Dyn.g1skIsPhoto, keyIsPhoto]
  | photo p =>
      subst hk
      by_cases h : p.user_id = uid <;>
        simp [enrich, entityKey, Dyn.g1skIsPhoto, keyIsPhoto, entUserId, h]
  | comment c =>
      subst hk; simp [enrich, entityKey, Dyn.g1skIsPhoto, keyIsComment, keyIsPhoto]
  | link l => subst hk; simp [enrich, entityKey, Dyn.g1skIsPhoto, keyIsPhoto]

/-- Filter agreement for `list_recent_photos`. -/
theorem cond_recent_photos (s : Mock.Store) (hKM : KeysMatch s) :
    ∀ kv ∈ s, ((enrich kv).gsi2sk.isSome) = keyIsPhoto kv.1 := by
  intro kv hkv
  obtain ⟨k, e⟩ := kv
  have hk := hKM (k, e) hkv
  simp only at hk
  cases e <;> (subst hk; simp [enrich, entityKey, keyIsPhoto])

/-- Filter agreement for `list_photo_comments`. -/
theorem cond_photo_comments (pid : String) (s : Mock.Store)
    (hKM : KeysMatch s) :
    ∀ kv ∈ s,
      (decide ((enrich kv).pk = MKey.photoK pid ∧
        keyIsComment (enrich kv).sk = true))
        = (keyIsComment kv.1 && (entPhotoId kv.2 == some pid)) := by
  intro kv hkv
  obtain ⟨k, e⟩ := kv
  have hk := hKM (k, e) hkv
  simp only at hk
  cases e with
  | user u => subst hk; simp [enrich, entityKey, keyIsComment]
  | photo p => subst hk; simp [enrich, entityKey, keyIsComment]
  | comment c =>
      subst hk
      by_cases h : c.photo_id = pid <;>
        simp [enrich, entityKey, keyIsComment, entPhotoId, h]
  | link l => subst hk; simp [enrich, entityKey, keyIsComment]

/-- Entities selected by the mock photo filters are photos (under the key
discipline). -/
theorem filter_photo_entity (p : MKey × Entity → Bool) (s : Mock.Store)
    (hKM : KeysMatch s)
    (hp : ∀ kv, p kv = true → keyIsPhoto kv.1 = true) :
    ∀ kv ∈ s.filter p, ∃ ph : PhotoItem, kv.2 = .photo ph := by
  intro kv hkv
  rcases List.mem_filter.mp hkv with ⟨hmem, hsel⟩
  obtain ⟨k, e⟩ := kv
  have hk := hKM (k, e) hmem
  simp only at hk
  have := hp (k, e) hsel
  cases e with
  | user u => subst hk; simp [keyIsPhoto, entityKey] at this
  | photo ph => exact ⟨ph, rfl⟩
  | comment c => subst hk; simp [keyIsPhoto, entityKey] at this
  | link l => subst hk; simp [keyIsPhoto, entityKey] at this

/-- Equivalence of `list_user_photos` on the two backends, over related
states. -/
theorem list_user_photos_equiv (uid : String) (lim : Nat) (s : Mock.Store)
    (hKM : KeysMatch s) :
    (Dyn.list_user_photos uid lim (s.map enrich)).map Dyn.Row.payload
      = Mock.list_user_photos uid (Int.ofNat lim) s := by
  unfold Dyn.list_user_photos Mock.list_user_photos
  rw [pyTake_ofNat]
  refine queryEquiv _ _ Mock.descByCreated Dyn.descByG1 s lim
    (cond_user_photos uid s hKM) ?_
  intro x hx y hy
  obtain ⟨px, hpx⟩ := filter_photo_entity _ s hKM
    (fun kv h => by simp only [Bool.and_eq_true] at h; exact h.1) x hx
  obtain ⟨py, hpy⟩ := filter_photo_entity _ s hKM
    (fun kv h => by simp only [Bool.and_eq_true] at h; exact h.1) y hy
  obtain ⟨kx, ex⟩ := x
  obtain ⟨ky, ey⟩ := y
  simp only at hpx hpy
  subst hpx; subst hpy
  simp [Dyn.descByG1, Dyn.g1skTs, Mock.descByCreated, enrich, entCreatedAt]

/-- Equivalence of `list_recent_photos` on the two backends. -/
theorem list_recent_photos_equiv (lim : Nat) (s : Mock.Store)
    (hKM : KeysMatch s) :
    (Dyn.list_recent_photos lim (s.map enrich)).map Dyn.Row.payload
      = Mock.list_recent_photos (Int.ofNat lim) s := by
  unfold Dyn.list_recent_photos Mock.list_recent_photos
  rw [pyTake_ofNat]
  refine queryEquiv _ _ Mock.descByCreated Dyn.descByG2 s lim
    (cond_recent_photos s hKM) ?_
  intro x hx y hy
  obtain ⟨px, hpx⟩ := filter_photo_entity _ s hKM (fun kv h => h) x hx
  obtain ⟨py, hpy⟩ := filter_photo_entity _ s hKM (fun kv h => h) y hy
  obtain ⟨kx, ex⟩ := x
  obtain ⟨ky, ey⟩ := y
  simp only at hpx hpy
  subst hpx; subst hpy
  simp [Dyn.descByG2, Mock.descByCreated, enrich, entCreatedAt]

/-- The two backends return the same comments (as a multiset) when the
limit covers them all; the orders differ in general, the mock sorting by
`created_at` and the durable backend by the `COMMENT#<comment_id>` sort
key. -/
theorem list_photo_comments_equiv (pid : String) (lim : Nat)
    (s : Mock.Store) (hKM : KeysMatch s)
    (hlim : (s.filter (fun kv =>
      keyIsComment kv.1 && (entPhotoId kv.2 == some pid))).length ≤ lim) :
    List.Perm
      ((Dyn.list_photo_comments pid lim (s.map enrich)).map Dyn.Row.payload)
      (Mock.list_photo_comments pid (Int.ofNat lim) s) := by
  unfold Dyn.list_photo_comments Mock.list_photo_comments
  rw [pyTake_ofNat]
  have hfil : ((s.map enrich).filter (fun r =>
      decide (r.pk = MKey.photoK pid ∧ keyIsComment r.sk = true)))
      = (s.filter (fun kv =>
          keyIsComment kv.1 && (entPhotoId kv.2 == some pid))).map enrich := by
    rw [List.filter_map]
    congr 1
    exact List.filter_congr (fun kv hkv => cond_photo_comments pid s hKM kv hkv)
  rw [hfil]
  set fl := s.filter (fun kv =>
    keyIsComment kv.1 && (entPhotoId kv.2 == some pid)) with hfl
  have hlen1 : (sortL Dyn.ascBySkId (fl.map enrich)).length = fl.length := by
    rw [sortL_length, List.length_map]
  have hlen2 : (sortL Mock.ascByCreated (fl.map Prod.snd)).length
      = fl.length := by
    rw [sortL_length, List.length_map]
  rw [List.take_of_length_le (by rw [hlen1]; exact hlim),
    List.take_of_length_le (by rw [hlen2]; exact hlim)]
  have p1 : List.Perm ((sortL Dyn.ascBySkId (fl.map enrich)).map
      Dyn.Row.payload) (fl.map (fun kv => (enrich kv).payload)) := by
    have := (sortL_perm Dyn.ascBySkId (fl.map enrich)).map Dyn.Row.payload
    simpa [List.map_map, Function.comp] using this
  have p2 : List.Perm (fl.map Prod.snd)
      (sortL Mock.ascByCreated (fl.map Prod.snd)) :=
    (sortL_perm Mock.ascByCreated (fl.map Prod.snd)).symm
  have hmid : fl.map (fun kv => (enrich kv).payload) = fl.map Prod.snd :=
    List.map_congr_left (fun kv _ => payload_enrich kv)
  exact (p1.trans (hmid ▸ List.Perm.refl _)).trans p2

/-- An arbitrary service operation against the in-memory backend, as
invoked by the routers: creates carry the generated id and partial updates
are the `exclude_unset` dicts of the pydantic update schemas. -/
inductive MOp where
  | cUser (d : UserData) (gen : String)
  | cPhoto (d : PhotoData) (pid : String)
  | cComment (d : CommentData) (cid : String)
  | cLink (d : LinkData) (lid : String)
  | uUser (uid : String) (u : UserUpd)
  | uPhoto (pid : String) (u : PhotoUpd)
  | incLink (lid : String)
  | gUser (uid : String)
  | gPhoto (pid : String)
  | gLink (lid : String)
  | lUserPhotos (uid : String) (limit : Int)
  | lRecent (limit : Int)
  | lComments (pid : String) (limit : Int)

/-- State effect of one operation.  Reads and lists do not touch
`self.data`; a failed update raises before mutating, leaving the store as
it was. -/
def mstep (op : MOp) (now : Nat) (s : Mock.Store) : Mock.Store :=
  match op with
  | .cUser d gen => (Mock.create_user d gen now s).1
  | .cPhoto d pid => (Mock.create_photo d pid now s).1
  | .cComment d cid => (Mock.create_comment d cid now s).1
  | .cLink d lid => (Mock.create_shareable_link d lid now s).1
  | .uUser uid u =>
      match Mock.update_user uid u now s with
      | some (s2, _) => s2
      | none => s
  | .uPhoto pid u =>
      match Mock.update_photo pid u now s with
      | some (s2, _) => s2
      | none => s
  | .incLink lid => Mock.increment_link_access lid now s
  | .gUser _ => s
  | .gPhoto _ => s
  | .gLink _ => s
  | .lUserPhotos _ _ => s
  | .lRecent _ => s
  | .lComments _ _ => s

/-- Run a timed operation sequence. -/
def mrun : List (MOp × Nat) → Mock.Store → Mock.Store
  | [], s => s
  | (op, now) :: rest, s => mrun rest (mstep op now s)

/-- The id supplied to a create is fresh: uuid generation does not collide,
and `create_user` is only reached behind the get-or-create guard of
`routers/auth.py`. -/
def opFresh (op : MOp) (s : Mock.Store) : Prop :=
  match op with
  | .cUser d gen =>
      dictGet (MKey.userK (match d.id with
        | some i => if i = "" then gen else i
        | none => gen)) s = none
  | .cPhoto _ pid => dictGet (MKey.photoK pid) s = none
  | .cComment _ cid => dictGet (MKey.commentK cid) s = none
  | .cLink _ lid => dictGet (MKey.linkK lid) s = none
  | _ => True

/-- Every create along the run is fresh. -/
def RunOK : Mock.Store → List (MOp × Nat) → Prop
  | _, [] => True
  | s, (op, now) :: rest => opFresh op s ∧ RunOK (mstep op now s) rest

/-- What any reachable single step preserves about the entity stored under
a fixed key: `created_at` never moves, a photo keeps its identity and
owner, a link stays a link and its `access_count` never shrinks. -/
def Pres (e e' : Entity) : Prop :=
  entCreatedAt e' = entCreatedAt e ∧
  (∀ p : PhotoItem, e = .photo p → ∃ p' : PhotoItem, e' = .photo p' ∧
    p'.user_id = p.user_id ∧ p'.photo_id = p.photo_id ∧
    p'.created_at = p.created_at) ∧
  (∀ l : LinkItem, e = .link l → ∃ l' : LinkItem, e' = .link l' ∧
    l.access_count ≤ l'.access_count ∧ l'.created_at = l.created_at)

theorem pres_refl (e : Entity) : Pres e e := by
  refine ⟨rfl, ?_, ?_⟩
  · intro p hp; exact ⟨p, hp, rfl, rfl, rfl⟩
  · intro l hl; exact ⟨l, hl, le_refl _, rfl⟩

theorem pres_trans {e1 e2 e3 : Entity} (h1 : Pres e1 e2) (h2 : Pres e2 e3) :
    Pres e1 e3 := by
  obtain ⟨hc1, hp1, hl1⟩ := h1
  obtain ⟨hc2, hp2, hl2⟩ := h2
  refine ⟨hc2.trans hc1, ?_, ?_⟩
  · intro p hp
    obtain ⟨p', hp', hu, hid, hcr⟩ := hp1 p hp
    obtain ⟨p'', hp'', hu', hid', hcr'⟩ := hp2 p' hp'
    exact ⟨p'', hp'', hu'.trans hu, hid'.trans hid, hcr'.trans hcr⟩
  · intro l hl
    obtain ⟨l', hl', ha, hcr⟩ := hl1 l hl
    obtain ⟨l'', hl'', ha', hcr'⟩ := hl2 l' hl'
    exact ⟨l'', hl'', ha.trans ha', hcr'.trans hcr⟩

/-- One reachable step preserves `Pres` on every key already present. -/
theorem mstep_pres (op : MOp) (now : Nat) (s : Mock.Store) (k : MKey)
    (e : Entity) (hok : opFresh op s) (hk : dictGet k s = some e) :
    ∃ e', dictGet k (mstep op now s) = some e' ∧ Pres e e' := by
  have fresh_case : ∀ (kf : MKey) (v : Entity), dictGet kf s = none →
      ∃ e', dictGet k (dictInsert kf v s) = some e' ∧ Pres e e' := by
    intro kf v hf
    have hne : k ≠ kf := by
      intro h; rw [h, hf] at hk; cases hk
    exact ⟨e, by rw [dictGet_dictInsert_ne kf k v s hne]; exact hk,
      pres_refl e⟩
  have upd_case : ∀ (ku : MKey) (f : Entity → Entity),
      (∀ e0, Pres e0 (f e0)) →
      ∀ (s2 : Mock.Store),
      (match dictGet ku s with
        | some e0 => dictInsert ku (f e0) s
        | none => s) = s2 →
      ∃ e', dictGet k s2 = some e' ∧ Pres e e' := by
    intro ku f hf s2 hs2
    match hku : dictGet ku s with
    | none =>
        rw [hku] at hs2
        exact ⟨e, hs2 ▸ hk, pres_refl e⟩
    | some e0 =>
        rw [hku] at hs2
        by_cases hkk : k = ku
        · subst hkk
          rw [hku] at hk
          cases hk
          exact ⟨f e, by rw [← hs2, dictGet_dictInsert_self], hf e⟩
        · exact ⟨e,
            by rw [← hs2, dictGet_dictInsert_ne ku k (f e0) s hkk]; exact hk,
            pres_refl e⟩
  cases op with
  | cUser d gen => exact fresh_case _ _ hok
  | cPhoto d pid => exact fresh_case _ _ hok
  | cComment d cid => exact fresh_case _ _ hok
  | cLink d lid => exact fresh_case _ _ hok
  | uUser uid u =>
      refine upd_case (MKey.userK uid) (Mock.applyUserUpd u now) ?_ _ ?_
      · intro e0
        cases e0 with
        | user u0 =>
            refine ⟨rfl, ?_, ?_⟩
            · intro p hp; cases hp
            · intro l hl; cases hl
        | photo p0 => exact pres_refl _
        | comment c0 => exact pres_refl _
        | link l0 => exact pres_refl _
      · simp only [mstep, Mock.update_user]
        match dictGet (MKey.userK uid) s with
        | none => rfl
        | some e0 => rfl
  | uPhoto pid u =>
      refine upd_case (MKey.photoK pid) (Mock.applyPhotoUpd u now) ?_ _ ?_
      · intro e0
        cases e0 with
        | user u0 => exact pres_refl _
        | photo p0 =>
            refine ⟨rfl, ?_, ?_⟩
            · intro p hp
              cases hp
              exact ⟨_, rfl, rfl, rfl, rfl⟩
            · intro l hl; cases hl
        | comment c0 => exact pres_refl _
        | link l0 => exact pres_refl _
      · simp only [mstep, Mock.update_photo]
        match dictGet (MKey.photoK pid) s with
        | none => rfl
        | some e0 => rfl
  | incLink lid =>
      simp only [mstep, Mock.increment_link_access]
      match hku : dictGet (MKey.linkK lid) s with
      | none => exact ⟨e, hk, pres_refl e⟩
      | some (.user u0) => exact ⟨e, hk, pres_refl e⟩
      | some (.photo p0) => exact ⟨e, hk, pres_refl e⟩
      | some (.comment c0) => exact ⟨e, hk, pres_refl e⟩
      | some (.link l0) =>
          by_cases hkk : k = MKey.linkK lid
          · subst hkk
            rw [hku] at hk
            cases hk
            refine ⟨Entity.link { l0 with
                access_count := l0.access_count + 1, updated_at := now },
              ?_, rfl, ?_, ?_⟩
            · rw [dictGet_dictInsert_self]
            · intro p hp; cases hp
            · intro l hl
              cases hl
              exact ⟨_, rfl, Nat.le_succ _, rfl⟩
          · exact ⟨e, by rw [dictGet_dictInsert_ne _ k _ s hkk]; exact hk,
              pres_refl e⟩
  | gUser uid => exact ⟨e, hk, pres_refl e⟩
  | gPhoto pid => exact ⟨e, hk, pres_refl e⟩
  | gLink lid => exact ⟨e, hk, pres_refl e⟩
  | lUserPhotos uid lim => exact ⟨e, hk, pres_refl e⟩
  | lRecent lim => exact ⟨e, hk, pres_refl e⟩
  | lComments pid lim => exact ⟨e, hk, pres_refl e⟩

/-- A whole reachable run preserves `Pres` on every key already present. -/
theorem mrun_pres (ops : List (MOp × Nat)) : ∀ (s : Mock.Store) (k : MKey)
    (e : Entity), RunOK s ops → dictGet k s = some e →
    ∃ e', dictGet k (mrun ops s) = some e' ∧ Pres e e' := by
  induction ops with
  | nil => intro s k e _ hk; exact ⟨e, hk, pres_refl e⟩
  | cons hd rest ih =>
      obtain ⟨op, now⟩ := hd
      intro s k e hok hk
      obtain ⟨hf, hok'⟩ := hok
      obtain ⟨e1, hk1, hp1⟩ := mstep_pres op now s k e hf hk
      obtain ⟨e2, hk2, hp2⟩ := ih (mstep op now s) k e1 hok' hk1
      exact ⟨e2, hk2, pres_trans hp1 hp2⟩

/-- The request body of `POST /api/share` before validation:
`ShareableLinkCreate` has `expiration_days: Optional[int] =
Field(30, ge=1, le=365)` (`models/schemas.py:98`); the field is either
omitted or an integer. -/
structure RawLinkCreate where
  photo_id : String
  user_id : String
  expiration_days : Option Int

/-- Pydantic validation of `ShareableLinkCreate` plus the router's
`link_data.dict()` (`routers/share_links.py:29`): an omitted field takes
the default 30, a supplied integer outside `[1, 365]` is rejected with a
422 (`none` here), and the resulting dict always carries the value. -/
def parseShareableLinkCreate (r : RawLinkCreate) : Option LinkData :=
  match r.expiration_days with
  | none =>
      some { photo_id := r.photo_id, user_id := r.user_id,
             expiration_days := some 30 }
  | some d =>
      if 1 ≤ d ∧ d ≤ 365 then
        some { photo_id := r.photo_id, user_id := r.user_id,
               expiration_days := some d.toNat }
      else none

theorem get_item_put_item_self (r : Dyn.Row) (t : Dyn.Table) :
    Dyn.get_item r.pk r.sk (Dyn.put_item r t) = some r := by
  induction t with
  | nil => simp [Dyn.put_item, Dyn.get_item]
  | cons r0 rest ih =>
      by_cases h : r0.pk = r.pk ∧ r0.sk = r.sk
      · simp [Dyn.put_item, Dyn.get_item, h]
      · simp [Dyn.put_item, Dyn.get_item, h, ih]

/-- `isSome` of a lookup is stable under overwriting a key that is already
present. -/
theorem dictGet_isSome_dictInsert {κ α : Type} [DecidableEq κ]
    (k k' : κ) (v : α) (s : List (κ × α)) (hk : (dictGet k s).isSome) :
    ((dictGet k' (dictInsert k v s)).isSome) = (dictGet k' s).isSome := by
  by_cases h : k' = k
  · subst h
    rw [dictGet_dictInsert_self]
    cases hg : dictGet k' s with
    | none => rw [hg] at hk; simp at hk
    | some _ => simp
  · rw [dictGet_dictInsert_ne k k' v s h]

/-- Concrete store used by the C4 counterexample: two photos of user
`"u"`, created at instants 1 and 2. -/
def c4Store : Mock.Store :=
  (Mock.create_photo
    { user_id := "u", title := some "t2", description := none,
      file_path := "f2", file_size := none, content_type := none,
      metadata := none } "p2" 2
    (Mock.create_photo
      { user_id := "u", title := some "t1", description := none,
        file_path := "f1", file_size := none, content_type := none,
        metadata := none } "p1" 1 []).1).1

/-- Concrete create script used by the C1 counterexample: one photo, then
two comments whose creation order is opposite to the lexicographic order
of their generated comment ids. -/
def c1PhotoData : PhotoData :=
  { user_id := "u", title := some "t", description := none,
    file_path := "f", file_size := none, content_type := none,
    metadata := none }

def c1Script : List (COp × Nat) :=
  [ (.cPhoto c1PhotoData "p", 1),
    (.cComment { photo_id := "p", user_id := "u", content := "hello" } "b", 2),
    (.cComment { photo_id := "p", user_id := "u", content := "world" } "a", 3) ]

/-- C5: for every valid photo creation (title supplied), `get_photo`
called immediately after `create_photo` returns an item whose `user_id`,
`title` and `file_path` equal the creation inputs and whose `created_at`
equals its `updated_at`. -/
theorem c5_create_then_get (d : PhotoData) (pid : String) (now : Nat)
    (s : Mock.Store) (ti : String) (ht : d.title = some ti) :
    ∃ p : PhotoItem,
      Mock.get_photo pid (Mock.create_photo d pid now s).1
        = some (.photo p) ∧
      p.user_id = d.user_id ∧ p.title = ti ∧ p.file_path = d.file_path ∧
      p.created_at = p.updated_at := by
  refine ⟨(Mock.create_photo d pid now s).2, ?_, rfl, ?_, rfl, rfl⟩
  · exact dictGet_dictInsert_self _ _ _
  · simp [Mock.create_photo, ht]

/-- Witness for C5 at a concrete creation. -/
theorem c5_create_then_get_witness :
    ∃ p : PhotoItem,
      Mock.get_photo "p1" (Mock.create_photo c1PhotoData "p1" 7 []).1
        = some (.photo p) ∧
      p.user_id = c1PhotoData.user_id ∧ p.title = "t" ∧
      p.file_path = c1PhotoData.file_path ∧
      p.created_at = p.updated_at :=
  c5_create_then_get c1PhotoData "p1" 7 [] "t" rfl

/-- C2 counterexample: a link created at instant 0 with
`expiration_days = 1` still resolves at the instant `created_at + 1 day`
itself — the source checks `datetime.now() > expires_at`, so the claimed
"absent at or after that instant" fails at the boundary. -/
theorem c2_boundary_counterexample :
    Mock.get_shareable_link "L" usPerDay
      (Mock.create_shareable_link
        { photo_id := "p", user_id := "u", expiration_days := some 1 }
        "L" 0 []).1 ≠ none := by
  decide

/-- C2 (amended): a share link created with `expiration_days = d` resolves
for any now at or before `created_at + d` days — in particular for any now
strictly before that instant — and resolves to absent exactly for any now
strictly after it, on both backends. -/
theorem c2_link_expiry (d : LinkData) (lid : String) (t0 now : Nat)
    (s : Mock.Store) (t : Dyn.Table) (ed : Nat)
    (hed : d.expiration_days = some ed) :
    Mock.get_shareable_link lid now (Mock.create_shareable_link d lid t0 s).1
      = (if now ≤ t0 + ed * usPerDay
          then some (.link (Mock.create_shareable_link d lid t0 s).2)
          else none)
    ∧ (Mock.create_shareable_link d lid t0 s).2.created_at = t0
    ∧ (Mock.create_shareable_link d lid t0 s).2.expires_at
        = t0 + ed * usPerDay
    ∧ Dyn.get_shareable_link lid now
        (Dyn.create_shareable_link d lid t0 t).1
      = (if now ≤ t0 + ed * usPerDay
          then some (Dyn.create_shareable_link d lid t0 t).2
          else none) := by
  refine ⟨?_, rfl, ?_, ?_⟩
  · unfold Mock.get_shareable_link Mock.create_shareable_link
    rw [dictGet_dictInsert_self]
    simp only [hed, Option.getD_some]
    by_cases h : now ≤ t0 + ed * usPerDay
    · rw [if_pos h, if_neg (by simpa using Nat.not_lt.mpr h)]
    · rw [if_neg h, if_pos (by simpa using Nat.lt_of_not_le h)]
  · simp [Mock.create_shareable_link, hed]
  · have hede : d.expiration_days.getD 30 = ed := by rw [hed]; rfl
    unfold Dyn.get_shareable_link
    have h1 : (Dyn.create_shareable_link d lid t0 t).1
        = Dyn.put_item (Dyn.create_shareable_link d lid t0 t).2 t := rfl
    have h2 := get_item_put_item_self (Dyn.create_shareable_link d lid t0 t).2 t
    have hpk : (Dyn.create_shareable_link d lid t0 t).2.pk
        = MKey.linkK lid := rfl
    have hsk : (Dyn.create_shareable_link d lid t0 t).2.sk
        = MKey.linkK lid := rfl
    rw [hpk, hsk] at h2
    rw [h1, h2]
    dsimp only
    have hpay : (Dyn.create_shareable_link d lid t0 t).2.payload
        = Entity.link
            { link_id := lid, photo_id := d.photo_id,
              user_id := d.user_id,
              expires_at := t0 + d.expiration_days.getD 30 * usPerDay,
              access_count := 0, created_at := t0, updated_at := t0 } := rfl
    rw [hpay]
    dsimp only
    simp only [hede]
    by_cases h : now ≤ t0 + ed * usPerDay
    · rw [if_pos h, if_neg (by simpa using Nat.not_lt.mpr h)]
    · rw [if_neg h, if_pos (by simpa using Nat.lt_of_not_le h)]

/-- Witness for the amended C2 at a concrete link and the two sides of the
boundary. -/
theorem c2_link_expiry_witness :
    (Mock.get_shareable_link "L" 3
        (Mock.create_shareable_link
          { photo_id := "p", user_id := "u", expiration_days := some 2 }
          "L" 3 []).1
      = (if 3 ≤ 3 + 2 * usPerDay
          then some (.link (Mock.create_shareable_link
            { photo_id := "p", user_id := "u", expiration_days := some 2 }
            "L" 3 []).2)
          else none))
    ∧ (Mock.create_shareable_link
        { photo_id := "p", user_id := "u", expiration_days := some 2 }
        "L" 3 []).2.created_at = 3
    ∧ (Mock.create_shareable_link
        { photo_id := "p", user_id := "u", expiration_days := some 2 }
        "L" 3 []).2.expires_at = 3 + 2 * usPerDay
    ∧ Dyn.get_shareable_link "L" 3
        (Dyn.create_shareable_link
          { photo_id := "p", user_id := "u", expiration_days := some 2 }
          "L" 3 []).1
      = (if 3 ≤ 3 + 2 * usPerDay
          then some (Dyn.create_shareable_link
            { photo_id := "p", user_id := "u", expiration_days := some 2 }
            "L" 3 []).2
          else none) :=
  c2_link_expiry
    { photo_id := "p", user_id := "u", expiration_days := some 2 }
    "L" 3 3 [] [] 2 rfl

/-- C8: share-link creation rejects every supplied `expiration_days`
outside `[1, 365]`, defaults it to 30 when omitted, computes `expires_at`
as `now + expiration_days` days, and returns a link whose `access_count`
is 0. -/
theorem c8_link_creation (r : RawLinkCreate) (lid : String) (now : Nat)
    (s : Mock.Store) :
    (parseShareableLinkCreate r = none ↔
      ∃ dv : Int, r.expiration_days = some dv ∧ (dv < 1 ∨ 365 < dv))
    ∧ (r.expiration_days = none →
        parseShareableLinkCreate r
          = some { photo_id := r.photo_id, user_id := r.user_id,
                   expiration_days := some 30 })
    ∧ (∀ ld, parseShareableLinkCreate r = some ld →
        ∃ ed : Nat, ld.expiration_days = some ed ∧
          (r.expiration_days = none → ed = 30) ∧
          (∀ dv : Int, r.expiration_days = some dv → dv = ed) ∧
          (Mock.create_shareable_link ld lid now s).2.access_count = 0 ∧
          (Mock.create_shareable_link ld lid now s).2.expires_at
            = now + ed * usPerDay) := by
  match hr : r.expiration_days with
  | none =>
      refine ⟨?_, ?_, ?_⟩
      · simp [parseShareableLinkCreate, hr]
      · intro _; simp [parseShareableLinkCreate, hr]
      · intro ld hld
        simp only [parseShareableLinkCreate, hr, Option.some.injEq] at hld
        refine ⟨30, ?_, fun _ => rfl, ?_, ?_, ?_⟩
        · rw [← hld]
        · intro dv hdv; cases hdv
        · rw [← hld]; rfl
        · rw [← hld]; rfl
  | some dv =>
      by_cases hrange : 1 ≤ dv ∧ dv ≤ 365
      · refine ⟨?_, ?_, ?_⟩
        · simp only [parseShareableLinkCreate, hr, hrange, if_pos]
          constructor
          · intro h; cases h
          · rintro ⟨dv2, hdv2, hout⟩
            cases hdv2
            omega
        · intro h; cases h
        · intro ld hld
          simp only [parseShareableLinkCreate, hr] at hld
          rw [if_pos hrange] at hld
          simp only [Option.some.injEq] at hld
          refine ⟨dv.toNat, ?_, ?_, ?_, ?_, ?_⟩
          · rw [← hld]
          · intro h; cases h
          · intro dv2 hdv2
            cases hdv2
            exact (Int.toNat_of_nonneg (by omega)).symm
          · rw [← hld]; rfl
          · rw [← hld]; rfl
      · refine ⟨?_, ?_, ?_⟩
        · simp only [parseShareableLinkCreate, hr, hrange, if_neg,
            not_false_iff]
          constructor
          · intro _; exact ⟨dv, rfl, by omega⟩
          · intro _; trivial
        · intro h; cases h
        · intro ld hld
          simp [parseShareableLinkCreate, hr, hrange] at hld

/-- Witness for C8 at an omitted field, an in-range value and an
out-of-range value. -/
theorem c8_link_creation_witness :
    ((parseShareableLinkCreate
        { photo_id := "p", user_id := "u", expiration_days := some 400 }
        = none ↔
      ∃ dv : Int,
        (some 400 : Option Int) = some dv ∧ (dv < 1 ∨ 365 < dv)))
    ∧ ((some 400 : Option Int) = none →
        parseShareableLinkCreate
          { photo_id := "p", user_id := "u", expiration_days := some 400 }
          = some { photo_id := "p", user_id := "u",
                   expiration_days := some 30 })
    ∧ (∀ ld, parseShareableLinkCreate
        { photo_id := "p", user_id := "u", expiration_days := some 400 }
          = some ld →
        ∃ ed : Nat, ld.expiration_days = some ed ∧
          ((some 400 : Option Int) = none → ed = 30) ∧
          (∀ dv : Int, (some 400 : Option Int) = some dv → dv = ed) ∧
          (Mock.create_shareable_link ld "L" 9 []).2.access_count = 0 ∧
          (Mock.create_shareable_link ld "L" 9 []).2.expires_at
            = 9 + ed * usPerDay) :=
  c8_link_creation
    { photo_id := "p", user_id := "u", expiration_days := some 400 }
    "L" 9 []

/-- C3: a partial update of an existing photo or user leaves every stored
field not present in the partial byte-for-byte unchanged (and every other
row untouched), sets `updated_at` to the call instant, and strictly
increases it whenever the call instant is past the stored `updated_at` —
as it is whenever the wall clock has advanced since the last write. -/
theorem c3_partial_update_frame (pid uid : String) (pu : PhotoUpd)
    (uu : UserUpd) (now : Nat) (s : Mock.Store) (p : PhotoItem)
    (u : UserItem)
    (hp : dictGet (.photoK pid) s = some (.photo p))
    (hu : dictGet (.userK uid) s = some (.user u))
    (hnp : p.updated_at < now) (hnu : u.updated_at < now) :
    (∃ p' : PhotoItem,
      Mock.update_photo pid pu now s
        = some (dictInsert (.photoK pid) (.photo p') s, .photo p') ∧
      (pu.title = none → p'.title = p.title) ∧
      (pu.description = none → p'.description = p.description) ∧
      (pu.metadata = none → p'.metadata = p.metadata) ∧
      p'.photo_id = p.photo_id ∧ p'.user_id = p.user_id ∧
      p'.file_path = p.file_path ∧ p'.file_size = p.file_size ∧
      p'.content_type = p.content_type ∧ p'.created_at = p.created_at ∧
      p'.updated_at = now ∧ p.updated_at < p'.updated_at)
    ∧ (∃ u' : UserItem,
      Mock.update_user uid uu now s
        = some (dictInsert (.userK uid) (.user u') s, .user u') ∧
      (uu.email = none → u'.email = u.email) ∧
      (uu.first_name = none → u'.first_name = u.first_name) ∧
      (uu.last_name = none → u'.last_name = u.last_name) ∧
      (uu.profile_image_url = none →
        u'.profile_image_url = u.profile_image_url) ∧
      u'.user_id = u.user_id ∧ u'.created_at = u.created_at ∧
      u'.updated_at = now ∧ u.updated_at < u'.updated_at)
    ∧ (∀ k, k ≠ .photoK pid → ∀ s2 e2,
        Mock.update_photo pid pu now s = some (s2, e2) →
          dictGet k s2 = dictGet k s)
    ∧ (∀ k, k ≠ .userK uid → ∀ s2 e2,
        Mock.update_user uid uu now s = some (s2, e2) →
          dictGet k s2 = dictGet k s) := by
  refine ⟨?_, ?_, ?_, ?_⟩
  · refine ⟨
      { p with
        title := pu.title.getD p.title,
        description := pu.description.getD p.description,
        metadata := pu.metadata.getD p.metadata,
        updated_at := now },
      ?_, ?_, ?_, ?_, rfl, rfl, rfl, rfl, rfl, rfl, rfl, hnp⟩
    · unfold Mock.update_photo
      rw [hp]
      rfl
    · intro h; rw [h]; rfl
    · intro h; rw [h]; rfl
    · intro h; rw [h]; rfl
  · refine ⟨
      { u with
        email := uu.email.getD u.email,
        first_name := uu.first_name.getD u.first_name,
        last_name := uu.last_name.getD u.last_name,
        profile_image_url := uu.profile_image_url.getD u.profile_image_url,
        updated_at := now },
      ?_, ?_, ?_, ?_, ?_, rfl, rfl, rfl, hnu⟩
    · unfold Mock.update_user
      rw [hu]
      rfl
    · intro h; rw [h]; rfl
    · intro h; rw [h]; rfl
    · intro h; rw [h]; rfl
    · intro h; rw [h]; rfl
  · intro k hk s2 e2 h2
    unfold Mock.update_photo at h2
    rw [hp] at h2
    simp only [Option.some.injEq, Prod.mk.injEq] at h2
    rw [← h2.1, dictGet_dictInsert_ne _ k _ s hk]
  · intro k hk s2 e2 h2
    unfold Mock.update_user at h2
    rw [hu] at h2
    simp only [Option.some.injEq, Prod.mk.injEq] at h2
    rw [← h2.1, dictGet_dictInsert_ne _ k _ s hk]

/-- Witness for C3 on a one-photo, one-user store with an empty photo
partial and a one-field user partial. -/
theorem c3_partial_update_frame_witness :
    ∃ s : Mock.Store, ∃ p : PhotoItem, ∃ u : UserItem,
      dictGet (.photoK "p1") s = some (.photo p) ∧
      dictGet (.userK "u1") s = some (.user u) ∧
      (∃ p' : PhotoItem,
        Mock.update_photo "p1"
          { title := none, description := none, metadata := none } 9 s
          = some (dictInsert (.photoK "p1") (.photo p') s, .photo p') ∧
        p'.title = p.title ∧ p'.created_at = p.created_at ∧
        p.updated_at < p'.updated_at) := by
  have hs : dictGet (MKey.photoK "p1")
      (Mock.create_user
        { id := some "u1", email := none, first_name := none,
          last_name := none, profile_image_url := none } "g" 2
        (Mock.create_photo c1PhotoData "p1" 1 []).1).1
      = some (.photo (Mock.create_photo c1PhotoData "p1" 1 []).2) := by decide
  have hu : dictGet (MKey.userK "u1")
      (Mock.create_user
        { id := some "u1", email := none, first_name := none,
          last_name := none, profile_image_url := none } "g" 2
        (Mock.create_photo c1PhotoData "p1" 1 []).1).1
      = some (.user (Mock.create_user
          { id := some "u1", email := none, first_name := none,
            last_name := none, profile_image_url := none } "g" 2
          (Mock.create_photo c1PhotoData "p1" 1 []).1).2) := by decide
  obtain ⟨hph, -, -⟩ := c3_partial_update_frame "p1" "u1"
    { title := none, description := none, metadata := none }
    { email := none, first_name := none, last_name := none,
      profile_image_url := none } 9 _ _ _ hs hu (by decide) (by decide)
  obtain ⟨p', h1, h2, -, -, -, -, -, -, -, h3, -, h4⟩ := hph
  exact ⟨_, _, _, hs, hu, p', h1, h2 rfl, h3, h4⟩

/-- Partial user update used by the C6 counterexample: only `email` set. -/
def c6Upd : UserUpd :=
  { email := some (some "x"), first_name := none, last_name := none,
    profile_image_url := none }

/-- C6 counterexample: on the durable backend, `update_user` of an absent
key does not fail — `UpdateItem` without a condition expression upserts —
and it creates a new partial row (no `user_id`, no `created_at`) for the
absent key, contradicting "fails with a not-found error iff the key is
absent" and "never creating a new row for an absent key". -/
theorem c6_upsert_counterexample :
    dictGet "u1" (DynU.update_user "u1" c6Upd 5 []).1
        = some (DynU.applySet c6Upd 5 DynU.emptyAttrs)
      ∧ (DynU.applySet c6Upd 5 DynU.emptyAttrs).created_at = none
      ∧ (DynU.applySet c6Upd 5 DynU.emptyAttrs).user_id = none := by
  refine ⟨?_, rfl, rfl⟩
  rfl

/-- C6 (amended): the in-memory backend's `update_photo`/`update_user`
fail with a not-found error exactly when the key is absent, merge the
given fields and succeed when it is present, and never create or remove a
row; the durable backend's `update_user` never fails: it merges when the
key is present and upserts a new partial row when it is absent. -/
theorem c6_update_semantics (pid uid : String) (pu : PhotoUpd)
    (uu : UserUpd) (now : Nat) (s : Mock.Store) (ut : DynU.UTable) :
    (Mock.update_photo pid pu now s = none ↔
      dictGet (.photoK pid) s = none)
    ∧ (Mock.update_user uid uu now s = none ↔
        dictGet (.userK uid) s = none)
    ∧ (∀ e, dictGet (.photoK pid) s = some e →
        Mock.update_photo pid pu now s
          = some (dictInsert (.photoK pid) (Mock.applyPhotoUpd pu now e) s,
              Mock.applyPhotoUpd pu now e))
    ∧ (∀ e, dictGet (.userK uid) s = some e →
        Mock.update_user uid uu now s
          = some (dictInsert (.userK uid) (Mock.applyUserUpd uu now e) s,
              Mock.applyUserUpd uu now e))
    ∧ (∀ s2 e2, Mock.update_photo pid pu now s = some (s2, e2) →
        ∀ k, (dictGet k s2).isSome = (dictGet k s).isSome)
    ∧ (∀ s2 e2, Mock.update_user uid uu now s = some (s2, e2) →
        ∀ k, (dictGet k s2).isSome = (dictGet k s).isSome)
    ∧ (dictGet uid ut = none →
        (DynU.update_user uid uu now ut).1
          = ut ++ [(uid, DynU.applySet uu now DynU.emptyAttrs)])
    ∧ (∀ a, dictGet uid ut = some a →
        (DynU.update_user uid uu now ut).1
          = dictInsert uid (DynU.applySet uu now a) ut) := by
  refine ⟨?_, ?_, ?_, ?_, ?_, ?_, ?_, ?_⟩
  · unfold Mock.update_photo
    match h : dictGet (MKey.photoK pid) s with
    | none => simp
    | some e => simp
  · unfold Mock.update_user
    match h : dictGet (MKey.userK uid) s with
    | none => simp
    | some e => simp
  · intro e he
    unfold Mock.update_photo
    rw [he]
  · intro e he
    unfold Mock.update_user
    rw [he]
  · intro s2 e2 h2 k
    unfold Mock.update_photo at h2
    match h : dictGet (MKey.photoK pid) s with
    | none => rw [h] at h2; cases h2
    | some e =>
        rw [h] at h2
        simp only [Option.some.injEq, Prod.mk.injEq] at h2
        rw [← h2.1]
        exact dictGet_isSome_dictInsert _ k _ s (by rw [h]; rfl)
  · intro s2 e2 h2 k
    unfold Mock.update_user at h2
    match h : dictGet (MKey.userK uid) s with
    | none => rw [h] at h2; cases h2
    | some e =>
        rw [h] at h2
        simp only [Option.some.injEq, Prod.mk.injEq] at h2
        rw [← h2.1]
        exact dictGet_isSome_dictInsert _ k _ s (by rw [h]; rfl)
  · intro h
    unfold DynU.update_user
    rw [h]
    exact dictInsert_fresh _ _ _ h
  · intro a h
    unfold DynU.update_user
    rw [h]

/-- Witness for the amended C6 on a one-user store and a one-row durable
table. -/
theorem c6_update_semantics_witness :
    ∃ s : Mock.Store, ∃ ut : DynU.UTable,
      (Mock.update_photo "nope"
          { title := none, description := none, metadata := none } 9 s
        = none)
      ∧ (∀ e, dictGet (.userK "u1") s = some e →
          Mock.update_user "u1" c6Upd 9 s
            = some (dictInsert (.userK "u1")
                (Mock.applyUserUpd c6Upd 9 e) s,
                Mock.applyUserUpd c6Upd 9 e))
      ∧ (dictGet "u9" ut = none →
          (DynU.update_user "u9" c6Upd 9 ut).1
            = ut ++ [("u9", DynU.applySet c6Upd 9 DynU.emptyAttrs)]) := by
  refine ⟨(Mock.create_user
      { id := some "u1", email := none, first_name := none,
        last_name := none, profile_image_url := none } "g" 2 []).1,
    (DynU.create_user
      { id := some "u1", email := none, first_name := none,
        last_name := none, profile_image_url := none } "g" 2 []).1,
    ?_, ?_, ?_⟩
  · obtain ⟨h1, -⟩ := c6_update_semantics "nope" "u1"
      { title := none, description := none, metadata := none } c6Upd 9 _
      (DynU.create_user
        { id := some "u1", email := none, first_name := none,
          last_name := none, profile_image_url := none } "g" 2 []).1
    exact h1.mpr (by decide)
  · obtain ⟨-, -, -, h4, -⟩ := c6_update_semantics "nope" "u1"
      { title := none, description := none, metadata := none } c6Upd 9
      (Mock.create_user
        { id := some "u1", email := none, first_name := none,
          last_name := none, profile_image_url := none } "g" 2 []).1
      (DynU.create_user
        { id := some "u1", email := none, first_name := none,
          last_name := none, profile_image_url := none } "g" 2 []).1
    exact h4
  · obtain ⟨-, -, -, -, -, -, h7, -⟩ := c6_update_semantics "nope" "u9"
      { title := none, description := none, metadata := none } c6Upd 9
      (Mock.create_user
        { id := some "u1", email := none, first_name := none,
          last_name := none, profile_image_url := none } "g" 2 []).1
      (DynU.create_user
        { id := some "u1", email := none, first_name := none,
          last_name := none, profile_image_url := none } "g" 2 []).1
    exact h7

instance opFreshDec (op : MOp) (s : Mock.Store) : Decidable (opFresh op s) :=
  match op with
  | .cUser _ _ => inferInstanceAs (Decidable (_ = _))
  | .cPhoto _ _ => inferInstanceAs (Decidable (_ = _))
  | .cComment _ _ => inferInstanceAs (Decidable (_ = _))
  | .cLink _ _ => inferInstanceAs (Decidable (_ = _))
  | .uUser _ _ => isTrue trivial
  | .uPhoto _ _ => isTrue trivial
  | .incLink _ => isTrue trivial
  | .gUser _ => isTrue trivial
  | .gPhoto _ => isTrue trivial
  | .gLink _ => isTrue trivial
  | .lUserPhotos _ _ => isTrue trivial
  | .lRecent _ => isTrue trivial
  | .lComments _ _ => isTrue trivial

instance runOKDec (s : Mock.Store) (ops : List (MOp × Nat)) :
    Decidable (RunOK s ops) :=
  match ops with
  | [] => isTrue trivial
  | (op, now) :: rest =>
      haveI := runOKDec (mstep op now s) rest
      inferInstanceAs (Decidable (_ ∧ _))

instance scriptWFDec (bound : Nat) (s : Mock.Store)
    (cs : List (COp × Nat)) : Decidable (ScriptWF bound s cs) :=
  match cs with
  | [] => isTrue trivial
  | (op, now) :: rest =>
      haveI := scriptWFDec now (mstepC op now s) rest
      inferInstanceAs (Decidable (_ ∧ _ ∧ _))

/-- C7: a share link's `access_count` is 0 at creation and never decreases
across any reachable operation sequence; `increment_link_access` on an
existing link adds exactly 1 and refreshes `updated_at`, and on an absent
link leaves the store exactly unchanged. -/
theorem c7_access_count (d : LinkData) (lid : String) (now : Nat)
    (s : Mock.Store) (ops : List (MOp × Nat)) (k : MKey) (l : LinkItem)
    (hok : RunOK s ops) (hl : dictGet k s = some (.link l)) :
    (Mock.create_shareable_link d lid now s).2.access_count = 0
    ∧ (∃ l' : LinkItem, dictGet k (mrun ops s) = some (.link l') ∧
        l.access_count ≤ l'.access_count)
    ∧ (∀ l0 : LinkItem, dictGet (.linkK lid) s = some (.link l0) →
        Mock.increment_link_access lid now s
          = dictInsert (.linkK lid)
              (Entity.link
                { l0 with
                  access_count := l0.access_count + 1,
                  updated_at := now }) s)
    ∧ (dictGet (.linkK lid) s = none →
        Mock.increment_link_access lid now s = s) := by
  refine ⟨rfl, ?_, ?_, ?_⟩
  · obtain ⟨e', h1, -, -, h3⟩ := mrun_pres ops s k (.link l) hok hl
    obtain ⟨l', hl', hle, -⟩ := h3 l rfl
    exact ⟨l', by rw [h1, hl'], hle⟩
  · intro l0 h0
    unfold Mock.increment_link_access
    rw [h0]
  · intro h0
    unfold Mock.increment_link_access
    rw [h0]

/-- Witness for C7: a freshly created link, then one increment. -/
theorem c7_access_count_witness :
    ∃ s : Mock.Store, ∃ l : LinkItem,
      dictGet (.linkK "L") s = some (.link l) ∧
      (∃ l' : LinkItem,
        dictGet (.linkK "L")
          (mrun [(.incLink "L", 7)] s) = some (.link l') ∧
        l.access_count ≤ l'.access_count) := by
  have h := c7_access_count
    { photo_id := "p", user_id := "u", expiration_days := some 1 } "L" 7
    (Mock.create_shareable_link
      { photo_id := "p", user_id := "u", expiration_days := some 1 }
      "L" 0 []).1
    [(.incLink "L", 7)] (.linkK "L")
    (Mock.create_shareable_link
      { photo_id := "p", user_id := "u", expiration_days := some 1 }
      "L" 0 []).2
    (by decide) (by decide)
  exact ⟨_, _, by decide, h.2.1⟩

/-- C9: across any reachable operation sequence, a stored entity's
`created_at` never changes, and a stored photo additionally keeps its
`user_id` (owner reference). -/
theorem c9_immutable_fields (s : Mock.Store) (ops : List (MOp × Nat))
    (k : MKey) (e : Entity) (hok : RunOK s ops)
    (hk : dictGet k s = some e) :
    ∃ e', dictGet k (mrun ops s) = some e' ∧
      entCreatedAt e' = entCreatedAt e ∧
      (∀ p : PhotoItem, e = .photo p → ∃ p' : PhotoItem, e' = .photo p' ∧
        p'.user_id = p.user_id ∧ p'.created_at = p.created_at) := by
  obtain ⟨e', h1, h2, h3, -⟩ := mrun_pres ops s k e hok hk
  refine ⟨e', h1, h2, ?_⟩
  intro p hp
  obtain ⟨p', hp', hu, -, hc⟩ := h3 p hp
  exact ⟨p', hp', hu, hc⟩

/-- Witness for C9: one photo, then a partial update of it. -/
theorem c9_immutable_fields_witness :
    ∃ e', dictGet (.photoK "p1")
        (mrun [(.uPhoto "p1"
          { title := some "new", description := none, metadata := none },
          9)]
          (Mock.create_photo c1PhotoData "p1" 1 []).1) = some e' ∧
      entCreatedAt e'
        = entCreatedAt (.photo (Mock.create_photo c1PhotoData "p1" 1 []).2) ∧
      (∀ p : PhotoItem,
        (.photo (Mock.create_photo c1PhotoData "p1" 1 []).2 : Entity)
          = .photo p →
        ∃ p' : PhotoItem, e' = .photo p' ∧
          p'.user_id = p.user_id ∧ p'.created_at = p.created_at) :=
  c9_immutable_fields
    (Mock.create_photo c1PhotoData "p1" 1 []).1
    [(.uPhoto "p1"
      { title := some "new", description := none, metadata := none }, 9)]
    (.photoK "p1") (.photo (Mock.create_photo c1PhotoData "p1" 1 []).2)
    (by decide) (by decide)

/-- C10: `get_user`, `get_photo` and `get_shareable_link` leave the store
completely unchanged; resolving an expired link returns absent while the
stored row — `access_count` included — survives untouched, and resolving
a live link returns it without bumping its `access_count`. -/
theorem c10_reads_pure (uid pid lid : String) (now : Nat) (s : Mock.Store)
    (l : LinkItem) (hl : dictGet (.linkK lid) s = some (.link l)) :
    mstep (.gUser uid) now s = s
    ∧ mstep (.gPhoto pid) now s = s
    ∧ mstep (.gLink lid) now s = s
    ∧ (l.expires_at < now →
        Mock.get_shareable_link lid now s = none ∧
        dictGet (.linkK lid) (mstep (.gLink lid) now s) = some (.link l))
    ∧ (now ≤ l.expires_at →
        Mock.get_shareable_link lid now s = some (.link l) ∧
        dictGet (.linkK lid) (mstep (.gLink lid) now s) = some (.link l)) := by
  refine ⟨rfl, rfl, rfl, ?_, ?_⟩
  · intro h
    refine ⟨?_, hl⟩
    unfold Mock.get_shareable_link
    rw [hl]
    simp [h]
  · intro h
    refine ⟨?_, hl⟩
    unfold Mock.get_shareable_link
    rw [hl]
    simp [Nat.not_lt.mpr h]

/-- Witness for C10 on an expired concrete link. -/
theorem c10_reads_pure_witness :
    mstep (.gLink "L") 5
        (Mock.create_shareable_link
          { photo_id := "p", user_id := "u", expiration_days := some 1 }
          "L" 0 []).1
      = (Mock.create_shareable_link
          { photo_id := "p", user_id := "u", expiration_days := some 1 }
          "L" 0 []).1
    ∧ ((Mock.create_shareable_link
          { photo_id := "p", user_id := "u", expiration_days := some 1 }
          "L" 0 []).2.expires_at < 5 →
        Mock.get_shareable_link "L" 5
          (Mock.create_shareable_link
            { photo_id := "p", user_id := "u", expiration_days := some 1 }
            "L" 0 []).1 = none ∧
        dictGet (.linkK "L")
          (mstep (.gLink "L") 5
            (Mock.create_shareable_link
              { photo_id := "p", user_id := "u", expiration_days := some 1 }
              "L" 0 []).1)
          = some (.link (Mock.create_shareable_link
              { photo_id := "p", user_id := "u", expiration_days := some 1 }
              "L" 0 []).2)) := by
  have h := c10_reads_pure "u" "p" "L" 5
    (Mock.create_shareable_link
      { photo_id := "p", user_id := "u", expiration_days := some 1 }
      "L" 0 []).1
    (Mock.create_shareable_link
      { photo_id := "p", user_id := "u", expiration_days := some 1 }
      "L" 0 []).2
    (by decide)
  exact ⟨h.2.2.1, h.2.2.2.1⟩

instance keysMatchDec (s : Mock.Store) : Decidable (KeysMatch s) :=
  inferInstanceAs (Decidable (∀ kv ∈ s, kv.1 = entityKey kv.2))

theorem pairwise_pyTake {α : Type} (r : α → α → Prop) (lim : Int)
    (xs : List α) (h : xs.Pairwise r) : (pyTake lim xs).Pairwise r := by
  obtain ⟨n, hn⟩ := pyTake_eq_take lim xs
  rw [hn]
  exact List.Pairwise.sublist (List.take_sublist n xs) h

theorem mem_pyTake {α : Type} (lim : Int) (xs : List α) (x : α)
    (h : x ∈ pyTake lim xs) : x ∈ xs := by
  obtain ⟨n, hn⟩ := pyTake_eq_take lim xs
  rw [hn] at h
  exact (List.take_sublist n xs).mem h

theorem pyTake_length_le {α : Type} (lim : Int) (hlim : 0 ≤ lim)
    (xs : List α) : ((pyTake lim xs).length : Int) ≤ lim := by
  unfold pyTake
  rw [if_neg (by omega)]
  have h1 : (xs.take lim.toNat).length ≤ lim.toNat :=
    List.length_take_le _ _
  have h2 : ((xs.take lim.toNat).length : Int) ≤ (lim.toNat : Int) := by
    exact_mod_cast h1
  rwa [Int.toNat_of_nonneg hlim] at h2

theorem pairwise_sortL_desc (l : List Entity) :
    (sortL Mock.descByCreated l).Pairwise
      (fun a b => entCreatedAt b ≤ entCreatedAt a) := by
  have h := pairwise_sortL Mock.descByCreated l
    (fun x y => by
      unfold Mock.descByCreated
      rcases Nat.le_total (entCreatedAt y) (entCreatedAt x) with h | h
      · left; exact decide_eq_true h
      · right; exact decide_eq_true h)
    (fun x y z h1 h2 => by
      unfold Mock.descByCreated at h1 h2 ⊢
      exact decide_eq_true
        (Nat.le_trans (of_decide_eq_true h2) (of_decide_eq_true h1)))
  exact h.imp (fun hab => of_decide_eq_true hab)

theorem pairwise_sortL_asc (l : List Entity) :
    (sortL Mock.ascByCreated l).Pairwise
      (fun a b => entCreatedAt a ≤ entCreatedAt b) := by
  have h := pairwise_sortL Mock.ascByCreated l
    (fun x y => by
      unfold Mock.ascByCreated
      rcases Nat.le_total (entCreatedAt x) (entCreatedAt y) with h | h
      · left; exact decide_eq_true h
      · right; exact decide_eq_true h)
    (fun x y z h1 h2 => by
      unfold Mock.ascByCreated at h1 h2 ⊢
      exact decide_eq_true
        (Nat.le_trans (of_decide_eq_true h1) (of_decide_eq_true h2)))
  exact h.imp (fun hab => of_decide_eq_true hab)

/-- C4 counterexample: Python slicing accepts a negative `limit`, and
`photos[:-1]` on a two-photo store returns one photo — more than the
claimed "at most limit items" allows for `limit = -1`. -/
theorem c4_negative_limit_counterexample :
    ¬ (((Mock.list_user_photos "u" (-1) c4Store).length : Int)
        ≤ (-1 : Int)) := by
  decide

/-- C4 (amended): for every nonnegative limit the three list operations
return at most `limit` items (a negative Python limit instead slices from
the end); for every limit the photo lists are in non-increasing
`created_at` order and contain only photos — filtered by owner for
`list_user_photos` — and `list_photo_comments` returns only that photo's
comments in non-decreasing `created_at` order. -/
theorem c4_list_contracts (uid pid : String) (lim : Int) (s : Mock.Store)
    (hKM : KeysMatch s) :
    (0 ≤ lim →
      ((Mock.list_user_photos uid lim s).length : Int) ≤ lim ∧
      ((Mock.list_recent_photos lim s).length : Int) ≤ lim ∧
      ((Mock.list_photo_comments pid lim s).length : Int) ≤ lim)
    ∧ (Mock.list_user_photos uid lim s).Pairwise
        (fun a b => entCreatedAt b ≤ entCreatedAt a)
    ∧ (Mock.list_recent_photos lim s).Pairwise
        (fun a b => entCreatedAt b ≤ entCreatedAt a)
    ∧ (Mock.list_photo_comments pid lim s).Pairwise
        (fun a b => entCreatedAt a ≤ entCreatedAt b)
    ∧ (∀ e ∈ Mock.list_user_photos uid lim s,
        ∃ p : PhotoItem, e = .photo p ∧ p.user_id = uid)
    ∧ (∀ e ∈ Mock.list_recent_photos lim s,
        ∃ p : PhotoItem, e = .photo p)
    ∧ (∀ e ∈ Mock.list_photo_comments pid lim s,
        ∃ c : CommentItem, e = .comment c ∧ c.photo_id = pid) := by
  refine ⟨?_, ?_, ?_, ?_, ?_, ?_, ?_⟩
  · intro hlim
    exact ⟨pyTake_length_le lim hlim _, pyTake_length_le lim hlim _,
      pyTake_length_le lim hlim _⟩
  · exact pairwise_pyTake _ lim _ (pairwise_sortL_desc _)
  · exact pairwise_pyTake _ lim _ (pairwise_sortL_desc _)
  · exact pairwise_pyTake _ lim _ (pairwise_sortL_asc _)
  · intro e he
    have he1 := mem_pyTake _ _ _ he
    rw [mem_sortL] at he1
    obtain ⟨kv, hkvf, rfl⟩ := List.mem_map.mp he1
    obtain ⟨ph, hph⟩ := filter_photo_entity _ s hKM
      (fun kv2 h => by simp only [Bool.and_eq_true] at h; exact h.1) kv hkvf
    rcases List.mem_filter.mp hkvf with ⟨-, hsel⟩
    simp only [Bool.and_eq_true, beq_iff_eq] at hsel
    refine ⟨ph, hph, ?_⟩
    rw [hph] at hsel
    simpa [entUserId] using hsel.2
  · intro e he
    have he1 := mem_pyTake _ _ _ he
    rw [mem_sortL] at he1
    obtain ⟨kv, hkvf, rfl⟩ := List.mem_map.mp he1
    obtain ⟨ph, hph⟩ := filter_photo_entity _ s hKM (fun kv2 h => h) kv hkvf
    exact ⟨ph, hph⟩
  · intro e he
    have he1 := mem_pyTake _ _ _ he
    rw [mem_sortL] at he1
    obtain ⟨kv, hkvf, rfl⟩ := List.mem_map.mp he1
    rcases List.mem_filter.mp hkvf with ⟨hmem, hsel⟩
    simp only [Bool.and_eq_true, beq_iff_eq] at hsel
    obtain ⟨k, e0⟩ := kv
    have hk := hKM (k, e0) hmem
    simp only at hk
    cases e0 with
    | user u => subst hk; simp [keyIsComment, entityKey] at hsel
    | photo p => subst hk; simp [keyIsComment, entityKey] at hsel
    | comment c =>
        refine ⟨c, rfl, ?_⟩
        have := hsel.2
        simpa [entPhotoId] using this
    | link l => subst hk; simp [keyIsComment, entityKey] at hsel

/-- Witness for the amended C4 on the two-photo store with limit 1. -/
theorem c4_list_contracts_witness :
    (0 ≤ (1 : Int) →
      ((Mock.list_user_photos "u" 1 c4Store).length : Int) ≤ 1 ∧
      ((Mock.list_recent_photos 1 c4Store).length : Int) ≤ 1 ∧
      ((Mock.list_photo_comments "p1" 1 c4Store).length : Int) ≤ 1)
    ∧ (Mock.list_user_photos "u" 1 c4Store).Pairwise
        (fun a b => entCreatedAt b ≤ entCreatedAt a)
    ∧ (Mock.list_recent_photos 1 c4Store).Pairwise
        (fun a b => entCreatedAt b ≤ entCreatedAt a)
    ∧ (Mock.list_photo_comments "p1" 1 c4Store).Pairwise
        (fun a b => entCreatedAt a ≤ entCreatedAt b)
    ∧ (∀ e ∈ Mock.list_user_photos "u" 1 c4Store,
        ∃ p : PhotoItem, e = .photo p ∧ p.user_id = "u")
    ∧ (∀ e ∈ Mock.list_recent_photos 1 c4Store,
        ∃ p : PhotoItem, e = .photo p)
    ∧ (∀ e ∈ Mock.list_photo_comments "p1" 1 c4Store,
        ∃ c : CommentItem, e = .comment c ∧ c.photo_id = "p1") :=
  c4_list_contracts "u" "p1" 1 c4Store (by decide)

/-- C1 counterexample: after the same create sequence on both backends —
one photo, then a comment with generated id `"b"`, then a comment with
generated id `"a"` — `list_photo_comments` returns the comments oldest
first on the mock but ordered by the `COMMENT#<comment_id>` sort key on
DynamoDB, so the two backends disagree on the order. -/
theorem c1_comment_order_counterexample :
    (Dyn.list_photo_comments "p" 50 (drunC c1Script [])).map Dyn.Row.payload
      ≠ Mock.list_photo_comments "p" (Int.ofNat 50) (mrunC c1Script []) := by
  decide

/-- C1 (amended): for every create script with fresh generated ids and
strictly increasing call instants applied identically to both backends,
`list_user_photos` and `list_recent_photos` return the same items in the
same order (durable rows projected to their entity payload);
`list_photo_comments` returns the same set of comments whenever the limit
covers them all, but the durable backend orders them by comment id (its
`COMMENT#<comment_id>` sort key) while the mock orders them by
`created_at`, so only a permutation holds. -/
theorem c1_backend_equivalence (cs : List (COp × Nat)) (uid pid : String)
    (lim : Nat) (hwf : ScriptWF 0 [] cs) :
    (Dyn.list_user_photos uid lim (drunC cs [])).map Dyn.Row.payload
      = Mock.list_user_photos uid (Int.ofNat lim) (mrunC cs [])
    ∧ (Dyn.list_recent_photos lim (drunC cs [])).map Dyn.Row.payload
      = Mock.list_recent_photos (Int.ofNat lim) (mrunC cs [])
    ∧ (((mrunC cs []).filter (fun kv =>
          keyIsComment kv.1 && (entPhotoId kv.2 == some pid))).length
            ≤ lim →
        List.Perm
          ((Dyn.list_photo_comments pid lim
            (drunC cs [])).map Dyn.Row.payload)
          (Mock.list_photo_comments pid (Int.ofNat lim) (mrunC cs []))) := by
  obtain ⟨hKM, heq⟩ := drunC_enrich cs 0 []
    (fun kv h => absurd h (List.not_mem_nil kv)) hwf
  have h0 : drunC cs [] = (mrunC cs []).map enrich := by
    simpa using heq
  rw [h0]
  exact ⟨list_user_photos_equiv uid lim _ hKM,
    list_recent_photos_equiv lim _ hKM,
    fun hlim => list_photo_comments_equiv pid lim _ hKM hlim⟩

/-- Witness for the amended C1 on the concrete three-operation script. -/
theorem c1_backend_equivalence_witness :
    (Dyn.list_user_photos "u" 50 (drunC c1Script [])).map Dyn.Row.payload
      = Mock.list_user_photos "u" (Int.ofNat 50) (mrunC c1Script [])
    ∧ (Dyn.list_recent_photos 50 (drunC c1Script [])).map Dyn.Row.payload
      = Mock.list_recent_photos (Int.ofNat 50) (mrunC c1Script [])
    ∧ (((mrunC c1Script []).filter (fun kv =>
          keyIsComment kv.1 && (entPhotoId kv.2 == some "p"))).length
            ≤ 50 →
        List.Perm
          ((Dyn.list_photo_comments "p" 50
            (drunC c1Script [])).map Dyn.Row.payload)
          (Mock.list_photo_comments "p" (Int.ofNat 50)
            (mrunC c1Script []))) :=
  c1_backend_equivalence c1Script "u" "p" 50 (by decide)

end ImageFlow
